import Mathlib

/-!
# Verification of the Gong License Bot extraction + resolution pipeline

Shallow embedding of `src/index.js` (the current variant of the bot; the
second source file is an earlier revision of the same program).  Text is
modelled as `List Char`; each JavaScript regular expression used by the
extraction helpers is embedded as an explicit character-level matcher that
follows the engine's leftmost-match / greedy-with-backtracking semantics for
that particular pattern.  The Salesforce and Slack clients are modelled as
oracle functions supplied in an environment record; every call the handler
makes to the CRM is recorded in a trace so that ordering and counting
properties can be stated.
-/

namespace GongBot

/-! ## Basic character/string utilities -/

/-- Lower-case a list of characters (ASCII case mapping, as used by the
markers and e-mail addresses this program manipulates). -/
def lowerL (cs : List Char) : List Char := cs.map Char.toLower

/-- `startsWithCI pat cs`: `cs` starts with `pat`, comparing case-insensitively
(`pat` is given already lower-cased). -/
def startsWithCI (pat cs : List Char) : Bool :=
  pat.isPrefixOf (lowerL (cs.take pat.length))

/-- Case-sensitive substring occurrence test (JS `String.prototype.includes`). -/
def occursL (pat : List Char) : List Char → Bool
  | [] => pat.isPrefixOf ([] : List Char)
  | c :: cs => pat.isPrefixOf (c :: cs) || occursL pat (cs)

/-- Case-insensitive substring occurrence (`text.toLowerCase().includes(pat)`
with `pat` already lower-cased). -/
def occursCI (pat cs : List Char) : Bool := occursL pat (lowerL cs)

/-- JS whitespace class `\s` restricted to the characters that occur in chat
messages: space, tab, carriage return, line feed. -/
def isWs (c : Char) : Bool := c = ' ' || c = '\t' || c = '\r' || c = '\n'

/-- Characters the `.` metacharacter refuses to match in a JS regex without
the `s` flag (line terminators). -/
def isNl (c : Char) : Bool := c = '\n' || c = '\r'

/-- JS `String.prototype.trim`. -/
def jsTrim (cs : List Char) : List Char :=
  ((cs.dropWhile isWs).reverse.dropWhile isWs).reverse

/-- JS `String.prototype.split('\n')`. -/
def splitNl : List Char → List (List Char)
  | [] => [[]]
  | c :: cs =>
    if c = '\n' then [] :: splitNl cs
    else
      match splitNl cs with
      | l :: ls => (c :: l) :: ls
      | [] => [[c]]

/-- JS `String.prototype.split(sep)` for a one-character separator, used for
`email.split('@')`. -/
def splitOnChar (sep : Char) : List Char → List (List Char)
  | [] => [[]]
  | c :: cs =>
    if c = sep then [] :: splitOnChar sep cs
    else
      match splitOnChar sep cs with
      | l :: ls => (c :: l) :: ls
      | [] => [[c]]

/-! ## The e-mail regex

`/([a-zA-Z0-9._%+-]+@[a-zA-Z0-9.-]+\.[a-zA-Z]{2,})/`
embedded as an explicit matcher.  The local part and the domain run are
greedy; backtracking inside the domain run selects the rightmost `.` that is
followed by at least two letters. -/

def isLocalChar (c : Char) : Bool :=
  c.isAlpha || c.isDigit || c = '.' || c = '_' || c = '%' || c = '+' || c = '-'

def isDomainChar (c : Char) : Bool :=
  c.isAlpha || c.isDigit || c = '.' || c = '-'

/-- Index of the rightmost `'.'` in `dom` that is preceded by at least one
character and immediately followed by at least two letters — the position the
regex engine's backtracking of `[a-zA-Z0-9.-]+\.[a-zA-Z]{2,}` settles on. -/
def lastTldDot (dom : List Char) : Option Nat :=
  ((List.range dom.length).filter fun i =>
    1 ≤ i && dom.getD i ' ' = '.' &&
    decide (2 ≤ ((dom.drop (i+1)).takeWhile Char.isAlpha).length)).getLast?

/-- Try to match the e-mail pattern at the very start of `cs`; return the
matched substring. -/
def emailMatchAt (cs : List Char) : Option (List Char) :=
  let loc := cs.takeWhile isLocalChar
  let r1 := cs.dropWhile isLocalChar
  if loc = [] then none
  else
    match r1 with
    | '@' :: r2 =>
      let dom := r2.takeWhile isDomainChar
      match lastTldDot dom with
      | some i =>
        let tld := (dom.drop (i+1)).takeWhile Char.isAlpha
        some (loc ++ '@' :: dom.take (i+1) ++ tld)
      | none => none
    | _ => none

/-- First position (scanning left to right) at which the e-mail pattern
matches; returns the matched substring.  This is the leftmost-match rule of
`text.match(emailRegex)`. -/
def findFirstEmail : List Char → Option (List Char)
  | [] => none
  | c :: cs =>
    match emailMatchAt (c :: cs) with
    | some e => some e
    | none => findFirstEmail cs

/-- Scan forward from just after the marker, staying on the same line (the
`.*?` in the pattern cannot cross a line terminator), and return the first
e-mail match. -/
def sameLineEmail : List Char → Option (List Char)
  | [] => none
  | c :: cs =>
    match emailMatchAt (c :: cs) with
    | some e => some e
    | none => if isNl c then none else sameLineEmail cs

/-- Generic leftmost scan for a case-insensitive literal marker `pat`
(given lower-cased), applying continuation `k` to the text following the
marker; on failure of `k` the scan resumes one character further, which is
the regex engine's behaviour when the rest of the pattern fails to match at
an occurrence of the literal prefix. -/
def scanForCI (pat : List Char) (k : List Char → Option α) : List Char → Option α
  | [] => none
  | c :: cs =>
    match (if startsWithCI pat (c :: cs) then k (List.drop pat.length (c :: cs)) else none) with
    | some a => some a
    | none => scanForCI pat k cs

/-- The first line (in order) that contains "customer admin" case-insensitively
and on which the continuation succeeds. -/
def firstAdminLineHit (k : List Char → Option α) : List (List Char) → Option α
  | [] => none
  | l :: ls =>
    match (if occursCI "customer admin".toList l then k l else none) with
    | some a => some a
    | none => firstAdminLineHit k ls

/-! ## Literal-pattern replacement (the Slack-markup clean-ups)

Each clean-up is a global regex replace.  We embed each one as a matcher
`List Char → Option (output, rest)` tried at every position, driven by a
fuelled scanner (every successful match consumes at least one character, so
the input length is sufficient fuel). -/

def replGo (m : List Char → Option (List Char × List Char)) : Nat → List Char → List Char
  | 0, cs => cs
  | _ + 1, [] => []
  | fuel + 1, c :: cs =>
    match m (c :: cs) with
    | some (out, rest) => out ++ replGo m fuel rest
    | none => c :: replGo m fuel cs

def repl (m : List Char → Option (List Char × List Char)) (cs : List Char) : List Char :=
  replGo m cs.length cs

/-- Match `<mailto:ADDR|DISP>` at the start: `ADDR` is a nonempty run of
characters other than `|` and `>`, `DISP` a nonempty run of characters other
than `>`.  Returns `(ADDR, DISP, rest)`. -/
def mailtoDispAt (cs : List Char) : Option (List Char × List Char × List Char) :=
  if "<mailto:".toList.isPrefixOf cs then
    let t := cs.drop 8
    let addr := t.takeWhile fun c => c ≠ '|' && c ≠ '>'
    let r1 := t.dropWhile fun c => c ≠ '|' && c ≠ '>'
    if addr = [] then none
    else
      match r1 with
      | '|' :: r2 =>
        let disp := r2.takeWhile (· ≠ '>')
        let r3 := r2.dropWhile (· ≠ '>')
        if disp = [] then none
        else
          match r3 with
          | '>' :: rest => some (addr, disp, rest)
          | _ => none
      | _ => none
  else none

/-- Match `<mailto:ADDR>` at the start (`ADDR` nonempty, no `>`). -/
def mailtoPlainAt (cs : List Char) : Option (List Char × List Char) :=
  if "<mailto:".toList.isPrefixOf cs then
    let t := cs.drop 8
    let addr := t.takeWhile (· ≠ '>')
    let r1 := t.dropWhile (· ≠ '>')
    if addr = [] then none
    else
      match r1 with
      | '>' :: rest => some (addr, rest)
      | _ => none
  else none

/-- Match `<INNER>` at the start (`INNER` nonempty, no `>`). -/
def bracketAt (cs : List Char) : Option (List Char × List Char) :=
  match cs with
  | '<' :: t =>
    let inner := t.takeWhile (· ≠ '>')
    let r1 := t.dropWhile (· ≠ '>')
    if inner = [] then none
    else
      match r1 with
      | '>' :: rest => some (inner, rest)
      | _ => none
  | _ => none

/-- `.replace(/<mailto:([^|>]+)\|[^>]+>/g, '$1')` — keep the address. -/
def replMailtoDispKeepAddr (cs : List Char) : List Char :=
  repl (fun t => (mailtoDispAt t).map fun (a, _, rest) => (a, rest)) cs

/-- `.replace(/<mailto:[^|>]+\|([^>]+)>/g, '$1')` — keep the display text. -/
def replMailtoDispKeepDisp (cs : List Char) : List Char :=
  repl (fun t => (mailtoDispAt t).map fun (_, d, rest) => (d, rest)) cs

/-- `.replace(/<mailto:([^>]+)>/g, '$1')` — unwrap a plain mailto link. -/
def replMailtoPlainKeepAddr (cs : List Char) : List Char :=
  repl (fun t => (mailtoPlainAt t).map fun (a, rest) => (a, rest)) cs

/-- `.replace(/<mailto:[^>]+>/g, '')` — delete a plain mailto link. -/
def replMailtoPlainDrop (cs : List Char) : List Char :=
  repl (fun t => (mailtoPlainAt t).map fun (_, rest) => ([], rest)) cs

/-- `.replace(/<[^>]+>/g, '')` — delete any remaining bracketed markup. -/
def replBracketDrop (cs : List Char) : List Char :=
  repl (fun t => (bracketAt t).map fun (_, rest) => ([], rest)) cs

/-- `.replace(/\*/g, '')`. -/
def removeStars (cs : List Char) : List Char := cs.filter (· ≠ '*')

/-! ## `extractCustomerAdminEmail` -/

/-- The clean-up applied by `extractCustomerAdminEmail`:
mailto-with-display collapses to the bare address, plain mailto unwraps,
bold markers are removed. -/
def cleanForEmail (text : List Char) : List Char :=
  removeStars (replMailtoPlainKeepAddr (replMailtoDispKeepAddr text))

/-- `/Customer Admin:.*?(<email>)/i`: the first occurrence of the marker that
is followed, on the same line, by an e-mail, yields the leftmost such e-mail. -/
def adminEmailPrimary (cs : List Char) : Option (List Char) :=
  scanForCI "customer admin:".toList sameLineEmail cs

/-- The fallback loop: first line containing "customer admin"
(case-insensitively) that contains an e-mail-shaped substring. -/
def adminEmailFallback (cs : List Char) : Option (List Char) :=
  firstAdminLineHit findFirstEmail (splitNl cs)

/-- `extractCustomerAdminEmail` from `src/index.js`. -/
def extractCustomerAdminEmail (text : List Char) : Option (List Char) :=
  let cleanText := cleanForEmail text
  match adminEmailPrimary cleanText with
  | some e => some (jsTrim (lowerL e))
  | none =>
    match adminEmailFallback cleanText with
    | some e => some (jsTrim (lowerL e))
    | none => none

/-! ## `extractCustomerName` -/

/-- Capture of `/Customer Name:\s*(.+)/i` just after the marker: greedy `\s*`
then a nonempty greedy run of non-line-terminator characters, with the
minimal backtracking of `\s*` when the remainder starts with a line
terminator or is empty. -/
def customerNameCapture (rest : List Char) : Option (List Char) :=
  let ws := rest.takeWhile isWs
  let r := rest.dropWhile isWs
  match r with
  | c :: _ =>
    if isNl c then
      match (ws.filter fun w => ¬ isNl w).getLast? with
      | some w => some [w]
      | none => none
    else some (r.takeWhile fun c => ¬ isNl c)
  | [] =>
    match (ws.filter fun w => ¬ isNl w).getLast? with
    | some w => some [w]
    | none => none

/-- `extractCustomerName` from `src/index.js`.  The source also truncates the
captured group at an embedded newline, but the capture can never contain a
line terminator, so that branch is unreachable and is not modelled. -/
def extractCustomerName (text : List Char) : Option (List Char) :=
  let cleanText := replBracketDrop (removeStars text)
  match scanForCI "customer name:".toList customerNameCapture cleanText with
  | some cap => some (jsTrim cap)
  | none => none

/-! ## `extractCustomerAdminName` -/

/-- The name-token class `[A-Za-zÀ-ÖØ-öø-ÿ'-]`. -/
def isNameChar (c : Char) : Bool :=
  c.isAlpha || c = '\'' || c = '-' ||
  (0xC0 ≤ c.val && c.val ≤ 0xD6) || (0xD8 ≤ c.val && c.val ≤ 0xF6) ||
  (0xF8 ≤ c.val && c.val ≤ 0xFF)

/-- Continuation of the strict pattern after `Customer Admin:`:
`\s*(tok)\s+(tok)\s+[a-zA-Z0-9._%+-]+@`.  Each token is a maximal nonempty
run of name characters; the separators are nonempty whitespace runs; the
local part is a maximal nonempty run immediately followed by `@`. -/
def adminNameStrictTail (rest : List Char) : Option (List Char × List Char) :=
  let r0 := rest.dropWhile isWs
  let tok1 := r0.takeWhile isNameChar
  let r1 := r0.dropWhile isNameChar
  if tok1 = [] then none
  else
    let ws1 := r1.takeWhile isWs
    let r2 := r1.dropWhile isWs
    if ws1 = [] then none
    else
      let tok2 := r2.takeWhile isNameChar
      let r3 := r2.dropWhile isNameChar
      if tok2 = [] then none
      else
        let ws2 := r3.takeWhile isWs
        let r4 := r3.dropWhile isWs
        if ws2 = [] then none
        else
          let loc := r4.takeWhile isLocalChar
          let r5 := r4.dropWhile isLocalChar
          if loc = [] then none
          else
            match r5 with
            | '@' :: _ => some (tok1, tok2)
            | _ => none

/-- Continuation of the fallback pattern after `Customer Admin:`:
`\s*(tok)\s+(tok)`. -/
def adminNameLooseTail (rest : List Char) : Option (List Char × List Char) :=
  let r0 := rest.dropWhile isWs
  let tok1 := r0.takeWhile isNameChar
  let r1 := r0.dropWhile isNameChar
  if tok1 = [] then none
  else
    let ws1 := r1.takeWhile isWs
    let r2 := r1.dropWhile isWs
    if ws1 = [] then none
    else
      let tok2 := r2.takeWhile isNameChar
      if tok2 = [] then none else some (tok1, tok2)

/-- The clean-up applied by `extractCustomerAdminName`: mailto-with-display
collapses to the display text, plain mailto links and any other bracketed
markup are deleted, bold markers are removed. -/
def cleanForName (text : List Char) : List Char :=
  removeStars (replBracketDrop (replMailtoPlainDrop (replMailtoDispKeepDisp text)))

/-- Normalise `\r\n` and `\r` to `\n` (applied before the fallback's line
split). -/
def normNl (cs : List Char) : List Char :=
  (cs.map fun c => if c = '\r' then '\n' else c)

/-- `extractCustomerAdminName` from `src/index.js`, returning
`(firstName, lastName)`. -/
def extractCustomerAdminName (text : List Char) : Option (List Char × List Char) :=
  let cleanText := cleanForName text
  match scanForCI "customer admin:".toList adminNameStrictTail cleanText with
  | some nm => some nm
  | none =>
    firstAdminLineHit
      (scanForCI "customer admin:".toList adminNameLooseTail)
      (splitNl (normNl cleanText))

/-! ## CRM data model

Records carry exactly the fields this program reads or writes.  All strings
are `List Char`; SOQL `null` is `Option.none`.  The `Type` column of
`Account` is named `acctType` because `Type` is reserved in Lean. -/

structure Account where
  Id : List Char
  Name : List Char
  acctType : Option (List Char)
  deriving DecidableEq, Repr

structure Contact where
  Id : List Char
  Name : List Char
  Email : Option (List Char)
  AccountId : Option (List Char)
  Account : Option Account
  deriving DecidableEq, Repr

structure Subscription where
  Id : List Char
  SubName : Option (List Char)
  quantityText : Option (List Char)
  deriving DecidableEq, Repr

/-- Result of a jsforce `sobject(...).create(...)` call that did not throw. -/
structure CreateResult where
  success : Bool
  id : List Char
  deriving DecidableEq, Repr

/-- The payload assembled for `sobject('Opportunity').create`.  `CloseDate`
is modelled as days since the epoch; the source stores the ISO rendering of
this day (`new Date()` plus 30 days, date part of `toISOString`). -/
structure OppData where
  Name : List Char
  AccountId : List Char
  StageName : List Char
  CloseDate : Nat
  oppType : List Char
  LeadSource : List Char
  Won_Lost_Reason__c : Option (List Char)
  Main_Competitor__c : Option (List Char)
  MSA_Redlines__c : Option (List Char)
  BillingAccount__c : Option (List Char)
  OnBoarding_Contact__c : Option (List Char)
  Primary_Contact__c : Option (List Char)
  deriving DecidableEq, Repr

structure OppResult where
  id : List Char
  name : List Char
  url : List Char
  note : Option (List Char)
  deriving DecidableEq, Repr

structure Config where
  licenseRequestChannel : List Char
  customerTagUser : List Char
  sfInstanceUrl : List Char
  gongResellerAccountName : List Char
  gongResellerAccountId : Option (List Char)
  deriving DecidableEq, Repr

/-- Oracle environment standing for the Salesforce org and connection.  The
lookup helpers in the source catch every query error and return `null`, so
their oracles return `Option` directly; the raw `create` calls and the
contact re-fetch can throw, so those oracles return `Except` with the thrown
error's message. -/
structure CrmEnv where
  sfConnected : Bool
  initOk : Bool
  gongLookup : Option (List Char)
  contactByEmail : List Char → Option Contact
  accountByWebsite : List Char → Option Account
  accountByDomainField : List Char → Option Account
  accountByNameExact : List Char → Option Account
  accountByNameLike : List Char → Option Account
  contactByEmailAndAccount : List Char → List Char → Option Contact
  contactsOfAccount : List Char → List Contact
  contactCreate : List Char → List Char → List Char → List Char → Except (List Char) CreateResult
  contactById : List Char → Except (List Char) (Option Contact)
  accountById : List Char → Option Account
  oppCreate : OppData → Except (List Char) CreateResult
  subscriptionByAccount : List Char → List Char → Option Subscription

/-- One recorded CRM call made while handling a message. -/
inductive Step
  | contactByEmail
  | accountWebsite
  | accountDomainField
  | accountNameExact
  | accountNameLike
  | contactOnAccountExact
  | contactOnAccountScan
  | contactCreateCall
  | contactRefetch
  | accountByIdCall
  | oppCreateCall (d : OppData)
  | subscriptionCall
  deriving DecidableEq, Repr

/-! ## Lookup / create helpers (`src/index.js` lines 259–626) -/

/-- `findContactByEmail`: one query by trimmed, lower-cased e-mail. -/
def findContactByEmail (env : CrmEnv) (email : List Char) :
    List Step × Option Contact :=
  ([.contactByEmail], env.contactByEmail (lowerL (jsTrim email)))

/-- `findAccountByDomain`: website-contains query, then the `Domain__c`
query (whose may-not-exist error the source swallows). -/
def findAccountByDomain (env : CrmEnv) (email : List Char) :
    List Step × Option Account :=
  match (splitOnChar '@' email)[1]? with
  | none => ([], none)
  | some dom =>
    if dom = [] then ([], none)
    else
      match env.accountByWebsite dom with
      | some a => ([.accountWebsite], some a)
      | none =>
        match env.accountByDomainField dom with
        | some a => ([.accountWebsite, .accountDomainField], some a)
        | none => ([.accountWebsite, .accountDomainField], none)

/-- `findAccountByName`: exact-name query, then contains (`LIKE`) query. -/
def findAccountByName (env : CrmEnv) (accountName : List Char) :
    List Step × Option Account :=
  match env.accountByNameExact accountName with
  | some a => ([.accountNameExact], some a)
  | none =>
    match env.accountByNameLike accountName with
    | some a => ([.accountNameExact, .accountNameLike], some a)
    | none => ([.accountNameExact, .accountNameLike], none)

/-- The in-memory scan of an account's contacts for a case-insensitive
e-mail match (`contact.Email && contact.Email.toLowerCase() === emailLower`). -/
def scanContactsForEmail (emailLower : List Char) : List Contact → Option Contact
  | [] => none
  | c :: cs =>
    match c.Email with
    | some e =>
      if e ≠ [] && lowerL e = emailLower then some c
      else scanContactsForEmail emailLower cs
    | none => scanContactsForEmail emailLower cs

/-- `findContactByEmailAndAccount`: exact query scoped to the account, then a
bounded fetch of the account's contacts scanned in memory. -/
def findContactByEmailAndAccount (env : CrmEnv) (email accountId : List Char) :
    List Step × Option Contact :=
  match env.contactByEmailAndAccount email accountId with
  | some c => ([.contactOnAccountExact], some c)
  | none =>
    ([.contactOnAccountExact, .contactOnAccountScan],
      scanContactsForEmail (lowerL email) (env.contactsOfAccount accountId))

/-- `createContact`: create, then re-fetch the full record by id, falling
back to a synthesized minimal record when the re-fetch returns no rows; a
thrown error anywhere yields `null`. -/
def createContact (env : CrmEnv) (firstName lastName email accountId : List Char) :
    List Step × Option Contact :=
  match env.contactCreate firstName lastName email accountId with
  | .error _ => ([.contactCreateCall], none)
  | .ok r =>
    if r.success then
      match env.contactById r.id with
      | .ok (some c) => ([.contactCreateCall, .contactRefetch], some c)
      | .ok none =>
        ([.contactCreateCall, .contactRefetch],
          some { Id := r.id, Name := firstName ++ ' ' :: lastName,
                 Email := some email, AccountId := some accountId, Account := none })
      | .error _ => ([.contactCreateCall, .contactRefetch], none)
    else ([.contactCreateCall], none)

def opportunityUrl (cfg : Config) (id : List Char) : List Char :=
  cfg.sfInstanceUrl ++ "/lightning/r/Opportunity/".toList ++ id ++ "/view".toList

/-- The full field set assembled by `createOpportunity` (lines 537–559). -/
def fullOppData (cfg : Config) (today : Nat) (contact : Option Contact)
    (account : Account) : OppData :=
  { Name := account.Name ++ " - Inbound".toList
    AccountId := account.Id
    StageName := "Demo".toList
    CloseDate := today + 30
    oppType := "Inbound".toList
    LeadSource := "Partner".toList
    Won_Lost_Reason__c := some "Gong Reseller Referral".toList
    Main_Competitor__c := some "No Competitor".toList
    MSA_Redlines__c := some "No".toList
    BillingAccount__c := cfg.gongResellerAccountId
    OnBoarding_Contact__c :=
      match contact with
      | some c => if c.Id ≠ [] then some c.Id else none
      | none => none
    Primary_Contact__c :=
      match contact with
      | some c => if c.Id ≠ [] then some c.Id else none
      | none => none }

/-- The baseline field set used by `createOpportunityWithoutCustomFields`. -/
def baselineOppData (today : Nat) (account : Account) : OppData :=
  { Name := account.Name ++ " - Inbound".toList
    AccountId := account.Id
    StageName := "Demo".toList
    CloseDate := today + 30
    oppType := "Inbound".toList
    LeadSource := "Partner".toList
    Won_Lost_Reason__c := none
    Main_Competitor__c := none
    MSA_Redlines__c := none
    BillingAccount__c := none
    OnBoarding_Contact__c := none
    Primary_Contact__c := none }

/-- The manual-follow-up note attached on the reduced-field retry (the
source prefixes it with a warning emoji, omitted here). -/
def oppFallbackNote : List Char :=
  "Note: BillingAccount__c and OnBoarding_Contact__c were not set - please add manually".toList

/-- The error shapes on which `createOpportunity` retries without custom
fields. -/
def customFieldErrShape (m : List Char) : Bool :=
  occursL "BillingAccount__c".toList m ||
  occursL "OnBoarding_Contact__c".toList m ||
  occursL "No such column".toList m

def createOpportunityWithoutCustomFields (env : CrmEnv) (cfg : Config)
    (today : Nat) (_contact : Option Contact) (account : Account) :
    List Step × Option OppResult :=
  let d := baselineOppData today account
  match env.oppCreate d with
  | .ok r =>
    if r.success then
      ([.oppCreateCall d],
        some { id := r.id, name := d.Name, url := opportunityUrl cfg r.id,
               note := some oppFallbackNote })
    else ([.oppCreateCall d], none)
  | .error _ => ([.oppCreateCall d], none)

def createOpportunity (env : CrmEnv) (cfg : Config) (today : Nat)
    (contact : Option Contact) (account : Account) :
    List Step × Option OppResult :=
  let d := fullOppData cfg today contact account
  match env.oppCreate d with
  | .ok r =>
    if r.success then
      ([.oppCreateCall d],
        some { id := r.id, name := d.Name, url := opportunityUrl cfg r.id,
               note := none })
    else ([.oppCreateCall d], none)
  | .error m =>
    if customFieldErrShape m then
      let (s, res) := createOpportunityWithoutCustomFields env cfg today contact account
      (.oppCreateCall d :: s, res)
    else ([.oppCreateCall d], none)

/-- `findActiveGongSubscription`: returns `null` without querying when the
Gong reseller account id is not cached. -/
def findActiveGongSubscription (env : CrmEnv) (cfg : Config) (accountId : List Char) :
    List Step × Option Subscription :=
  match cfg.gongResellerAccountId with
  | none => ([], none)
  | some billingId => ([.subscriptionCall], env.subscriptionByAccount accountId billingId)

/-! ## Reply texts and the message handler (`app.message`, lines 641–879)

Reply strings follow the source; decorative emoji prefixes (and their
mojibake variants in the source) are omitted.  Slack reactions are recorded
by name.  The handler is a pure function of the configuration, the CRM
oracle, the current day and the inbound message. -/

structure SlackMessage where
  channel : List Char
  subtype : Option (List Char)
  text : List Char
  ts : List Char
  deriving DecidableEq, Repr

def contactUrl (cfg : Config) (c : Contact) : List Char :=
  cfg.sfInstanceUrl ++ "/lightning/r/Contact/".toList ++ c.Id ++ "/view".toList

def accountUrl (cfg : Config) (a : Account) : List Char :=
  cfg.sfInstanceUrl ++ "/lightning/r/Account/".toList ++ a.Id ++ "/view".toList

/-- `${customerName || 'Unknown'}`. -/
def orUnknown (o : Option (List Char)) : List Char :=
  match o with
  | some n => if n = [] then "Unknown".toList else n
  | none => "Unknown".toList

def replyNoEmail : List Char :=
  "Could not extract customer admin email from this request. Please process manually.".toList

def replyNoConnect : List Char :=
  "Could not connect to Salesforce. Please process manually.".toList

def replyNoAdminName (email : List Char) (account : Account) : List Char :=
  "Contact not found for: `".toList ++ email ++ "`\n".toList ++
  "Found account: *".toList ++ account.Name ++ "*\n".toList ++
  "Could not extract admin name to create contact.\n\n".toList ++
  "Please create the contact manually.".toList

def replyNoAccount (email : List Char) (customerName : Option (List Char)) : List Char :=
  "Contact not found in Salesforce for email: `".toList ++ email ++ "`\n".toList ++
  "Account not found by domain: *".toList ++ ((splitOnChar '@' email)[1]?.getD []) ++ "*\n".toList ++
  "Account not found by name: *".toList ++ orUnknown customerName ++ "*\n\n".toList ++
  "Please create the account, contact, and opportunity manually.".toList

def replyContactNotCreated (email : List Char) (customerName : Option (List Char)) : List Char :=
  "Contact not found and could not be created for: `".toList ++ email ++ "`\n".toList ++
  "Customer Name: ".toList ++ orUnknown customerName ++ "\n\n".toList ++
  "Please create the contact and opportunity manually.".toList

def replyNoAccountForContact (contact : Contact) : List Char :=
  "Could not find account for contact: ".toList ++ contact.Name ++ "\n".toList ++
  "Please process manually.".toList

def replyOppCreated (cfg : Config) (contact : Contact) (account : Account)
    (opp : OppResult) (contactCreated : Bool) : List Char :=
  "*Opportunity Created!*\n\n".toList ++
  "*Account:* <".toList ++ accountUrl cfg account ++ "|".toList ++ account.Name ++ ">\n".toList ++
  "*Account Type:* Prospect\n".toList ++
  "*Contact:* <".toList ++ contactUrl cfg contact ++ "|".toList ++ contact.Name ++ ">".toList ++
  (if contactCreated then " _(newly created)_".toList else []) ++
  "\n*Opportunity:* <".toList ++ opp.url ++ "|".toList ++ opp.name ++ ">".toList ++
  (match opp.note with
   | some n => "\n\n".toList ++ n
   | none => []) ++
  "\n\n<@".toList ++ cfg.customerTagUser ++ "> - new prospect opportunity created for review.".toList

def replyOppFailed (cfg : Config) (contact : Contact) (account : Account) : List Char :=
  "Failed to create opportunity for ".toList ++ account.Name ++ ".\n".toList ++
  "*Account:* <".toList ++ accountUrl cfg account ++ "|".toList ++ account.Name ++ ">\n".toList ++
  "*Contact:* <".toList ++ contactUrl cfg contact ++ "|".toList ++ contact.Name ++ ">\n\n".toList ++
  "Please create the opportunity manually.".toList

def replyCustomer (cfg : Config) (contact : Contact) (account : Account)
    (accountType : List Char) (sub : Option Subscription) (contactCreated : Bool) : List Char :=
  "*Existing Customer Account*\n\n".toList ++
  "*Account:* <".toList ++ accountUrl cfg account ++ "|".toList ++ account.Name ++ ">\n".toList ++
  "*Account Type:* ".toList ++ accountType ++ "\n".toList ++
  "*Contact:* <".toList ++ contactUrl cfg contact ++ "|".toList ++ contact.Name ++ ">".toList ++
  (if contactCreated then " _(newly created)_".toList else []) ++
  "\n\n".toList ++
  (match sub with
   | some g =>
     "*Has Active Gong Subscription:* ".toList ++
     (match g.SubName with
      | some n => if n = [] then "Yes".toList else n
      | none => "Yes".toList) ++ "\n".toList ++
     (match g.quantityText with
      | some q => if q = [] then [] else "*Current Quantity:* ".toList ++ q ++ "\n".toList
      | none => []) ++
     "\n*To add licenses:*\n".toList ++
     "1. Go to Customer Lifecycle Manager\n".toList ++
     "2. Update quantity on the subscription\n".toList ++
     "3. Checkout -> Activate the order -> Activate the order -> Carry on\n".toList
   | none =>
     "*No active Gong reseller subscription found*\n\n".toList ++
     "This customer may need a new Gong subscription set up.".toList) ++
  "\n\n<@".toList ++ cfg.customerTagUser ++ "> - please review this license request.".toList

/-- Outcome of the contact-resolution block (lines 697–768). -/
inductive ResolveOutcome
  | success (c : Contact) (created : Bool)
  | noAccount
  | noAdminName (a : Account)
  | contactFailed
  deriving DecidableEq, Repr

/-- The resolution cascade: contact by e-mail; otherwise account by domain,
then by company name; on an account hit, an existing contact scoped to the
account, else contact creation when an admin name was extracted. -/
def resolveContact (env : CrmEnv) (text email : List Char)
    (customerName : Option (List Char)) : List Step × ResolveOutcome :=
  let (s1, c0) := findContactByEmail env email
  match c0 with
  | some c => (s1, .success c false)
  | none =>
    let (s2, acc1) := findAccountByDomain env email
    let (s3, acc2) :=
      match acc1 with
      | some a => ([], some a)
      | none =>
        match customerName with
        | some n => if n ≠ [] then findAccountByName env n else ([], none)
        | none => ([], none)
    match acc2 with
    | some account =>
      let (s4, existing) := findContactByEmailAndAccount env email account.Id
      match existing with
      | some ec => (s1 ++ s2 ++ s3 ++ s4, .success ec false)
      | none =>
        match extractCustomerAdminName text with
        | some (f, l) =>
          let (s5, newc) := createContact env f l email account.Id
          match newc with
          | some c => (s1 ++ s2 ++ s3 ++ s4 ++ s5, .success c true)
          | none => (s1 ++ s2 ++ s3 ++ s4 ++ s5, .contactFailed)
        | none => (s1 ++ s2 ++ s3 ++ s4, .noAdminName account)
    | none => (s1 ++ s2 ++ s3, .noAccount)

structure HandlerResult where
  replies : List (List Char)
  reactions : List (List Char)
  steps : List Step
  contact : Option Contact
  account : Option Account
  contactCreated : Bool
  opp : Option OppResult
  deriving DecidableEq, Repr

def emptyResult : HandlerResult :=
  { replies := [], reactions := [], steps := [], contact := none,
    account := none, contactCreated := false, opp := none }

/-- `account.Type || 'Unknown'`. -/
def accountTypeOf (a : Account) : List Char :=
  match a.acctType with
  | some t => if t = [] then "Unknown".toList else t
  | none => "Unknown".toList

/-- The `app.message` handler.  A contact's account is taken from the
denormalized `Account` sub-record, else re-fetched by `AccountId` (a missing
`AccountId` makes that query return no rows). -/
def handleMessage (cfg : Config) (env : CrmEnv) (today : Nat)
    (msg : SlackMessage) : HandlerResult :=
  if msg.subtype = some "message_changed".toList then emptyResult
  else if msg.channel ≠ cfg.licenseRequestChannel then emptyResult
  else
    let text := msg.text
    if ¬ occursL "New ChiliPiper License Request Submitted!".toList text then emptyResult
    else
      let eyes := ["eyes".toList]
      match extractCustomerAdminEmail text with
      | none => { emptyResult with reactions := eyes, replies := [replyNoEmail] }
      | some customerEmail =>
        let customerName := extractCustomerName text
        if env.sfConnected = false ∧ env.initOk = false then
          { emptyResult with reactions := eyes, replies := [replyNoConnect] }
        else
          let cfg :=
            if env.sfConnected then cfg
            else { cfg with gongResellerAccountId :=
                     (cfg.gongResellerAccountId).orElse fun _ => env.gongLookup }
          let (rs, outcome) := resolveContact env text customerEmail customerName
          match outcome with
          | .noAccount =>
            { emptyResult with
              reactions := eyes
              steps := rs
              replies := [replyNoAccount customerEmail customerName] }
          | .noAdminName a =>
            { emptyResult with
              reactions := eyes
              steps := rs
              replies := [replyNoAdminName customerEmail a] }
          | .contactFailed =>
            { emptyResult with
              reactions := eyes
              steps := rs
              replies := [replyContactNotCreated customerEmail customerName] }
          | .success contact contactCreated =>
            let (as_, acc) :=
              match contact.Account with
              | some a => ([], some a)
              | none =>
                match contact.AccountId with
                | some aid => ([Step.accountByIdCall], env.accountById aid)
                | none => ([Step.accountByIdCall], none)
            match acc with
            | none =>
              { emptyResult with
                reactions := eyes
                steps := rs ++ as_
                contact := some contact
                contactCreated := contactCreated
                replies := [replyNoAccountForContact contact] }
            | some account =>
              let accountType := accountTypeOf account
              if lowerL accountType = "prospect".toList then
                let (os, oppRes) := createOpportunity env cfg today (some contact) account
                match oppRes with
                | some opp =>
                  { replies := [replyOppCreated cfg contact account opp contactCreated]
                    reactions := eyes ++ ["white_check_mark".toList]
                    steps := rs ++ as_ ++ os
                    contact := some contact
                    account := some account
                    contactCreated := contactCreated
                    opp := some opp }
                | none =>
                  { replies := [replyOppFailed cfg contact account]
                    reactions := eyes
                    steps := rs ++ as_ ++ os
                    contact := some contact
                    account := some account
                    contactCreated := contactCreated
                    opp := none }
              else
                let (ss, sub) := findActiveGongSubscription env cfg account.Id
                { replies := [replyCustomer cfg contact account accountType sub contactCreated]
                  reactions := eyes ++ ["information_source".toList]
                  steps := rs ++ as_ ++ ss
                  contact := some contact
                  account := some account
                  contactCreated := contactCreated
                  opp := none }

/-- Did this recorded CRM call create an opportunity (a create call whose
oracle outcome is a non-thrown success)? -/
def oppCreateSuccess (env : CrmEnv) : Step → Bool
  | .oppCreateCall d =>
    match env.oppCreate d with
    | .ok r => r.success
    | .error _ => false
  | _ => false

/-- Number of opportunities actually created while handling one message. -/
def oppsCreated (env : CrmEnv) (r : HandlerResult) : Nat :=
  (r.steps.filter (oppCreateSuccess env)).length

/-- Any record-creating CRM call (contact or opportunity). -/
def isCreateCall : Step → Bool
  | .contactCreateCall => true
  | .oppCreateCall _ => true
  | _ => false

/-! ## The session-query wrapper `sfQuery` (lines 50–70) -/

/-- The error shapes on which `sfQuery` refreshes the session and retries:
the check is a plain case-sensitive substring test, so any message containing
lower-case "invalid" qualifies. -/
def sessionErrShape (m : List Char) : Bool :=
  occursL "Session expired".toList m ||
  occursL "INVALID_SESSION_ID".toList m ||
  occursL "invalid".toList m

/-- Oracle for one `sfQuery` call: the outcome of the underlying
`sfConnection.query` on each successive attempt, and whether the forced
re-authentication succeeds. -/
structure QueryEnv where
  attempt : Nat → Except (List Char) (List (List Char))
  reconnectOk : Bool

structure QueryRun where
  result : Except (List Char) (List (List Char))
  attempts : Nat
  reconnects : Nat
  deriving Repr

/-- `sfQuery(soql)`: one attempt; on a session-shaped error, drop the cached
connection, re-authenticate, and re-run the whole sequence exactly once
(`retried = true` suppresses any further retry); if re-authentication fails
the original error propagates. -/
def sfQuery (env : QueryEnv) : QueryRun :=
  match env.attempt 0 with
  | .ok r => { result := .ok r, attempts := 1, reconnects := 0 }
  | .error m =>
    if sessionErrShape m then
      if env.reconnectOk then
        match env.attempt 1 with
        | .ok r => { result := .ok r, attempts := 2, reconnects := 1 }
        | .error m2 => { result := .error m2, attempts := 2, reconnects := 1 }
      else { result := .error m, attempts := 1, reconnects := 1 }
    else { result := .error m, attempts := 1, reconnects := 0 }

/-! ## Occurrence lemmas -/

theorem occursL_eq_true_iff {pat cs : List Char} : occursL pat cs = true ↔ pat <:+: cs := by
  induction cs with
  | nil => simp [occursL, List.isPrefixOf_iff_prefix]
  | cons c cs ih => simp [occursL, List.isPrefixOf_iff_prefix, List.infix_cons_iff, ih]

theorem startsWithCI_iff {pat cs : List Char} :
    startsWithCI pat cs = true ↔ pat <+: lowerL cs := by
  simp [startsWithCI, lowerL, List.isPrefixOf_iff_prefix, List.map_take, List.prefix_take_iff]

theorem occursCI_iff {pat cs : List Char} : occursCI pat cs = true ↔ pat <:+: lowerL cs :=
  occursL_eq_true_iff

theorem occursCI_cons (pat : List Char) (c : Char) (cs : List Char) :
    occursCI pat (c :: cs) = (startsWithCI pat (c :: cs) || occursCI pat cs) := by
  rw [Bool.eq_iff_iff]
  simp only [Bool.or_eq_true, occursCI_iff, startsWithCI_iff, lowerL, List.map_cons,
    List.infix_cons_iff]

theorem scanForCI_eq_none {α : Type} {pat : List Char} {k : List Char → Option α}
    {cs : List Char} (h : occursCI pat cs = false) : scanForCI pat k cs = none := by
  induction cs with
  | nil => rfl
  | cons c cs ih =>
    rw [occursCI_cons, Bool.or_eq_false_iff] at h
    unfold scanForCI
    rw [h.1]
    simpa using ih h.2

theorem splitNl_head_pre :
    ∀ cs : List Char, ∀ l ls, splitNl cs = l :: ls → l <+: cs := by
  intro cs
  induction cs with
  | nil =>
    intro l ls h
    simp only [splitNl] at h
    cases h
    exact List.nil_prefix
  | cons c cs ih =>
    intro l ls h
    unfold splitNl at h
    by_cases hc : c = '\n'
    · rw [if_pos hc] at h
      cases h
      exact List.nil_prefix
    · rw [if_neg hc] at h
      cases hsp : splitNl cs with
      | nil =>
        rw [hsp] at h
        injection h with h1 h2
        subst h1
        exact (List.cons_prefix_cons).mpr ⟨rfl, List.nil_prefix⟩
      | cons l0 ls0 =>
        rw [hsp] at h
        injection h with h1 h2
        subst h1
        exact (List.cons_prefix_cons).mpr ⟨rfl, ih l0 ls0 hsp⟩

theorem splitNl_mem_part :
    ∀ cs : List Char, ∀ l ∈ splitNl cs, l <:+: cs := by
  intro cs
  induction cs with
  | nil =>
    intro l hl
    simp only [splitNl, List.mem_singleton] at hl
    simp [hl]
  | cons c cs ih =>
    intro l hl
    unfold splitNl at hl
    by_cases hc : c = '\n'
    · rw [if_pos hc] at hl
      rcases List.mem_cons.mp hl with rfl | hl
      · exact List.nil_infix
      · exact (ih l hl).trans (List.suffix_cons c cs).isInfix
    · rw [if_neg hc] at hl
      cases hsp : splitNl cs with
      | nil =>
        rw [hsp] at hl
        simp only [List.mem_singleton] at hl
        subst hl
        exact ((List.cons_prefix_cons).mpr ⟨rfl, List.nil_prefix⟩).isInfix
      | cons l0 ls0 =>
        rw [hsp] at hl
        rcases List.mem_cons.mp hl with rfl | hl
        · exact ((List.cons_prefix_cons).mpr ⟨rfl, splitNl_head_pre cs l0 ls0 hsp⟩).isInfix
        · exact (ih l (hsp ▸ List.mem_cons_of_mem l0 hl)).trans (List.suffix_cons c cs).isInfix

theorem occursCI_of_mem_splitNl {pat cs l : List Char} (hl : l ∈ splitNl cs)
    (h : occursCI pat l = true) : occursCI pat cs = true := by
  rw [occursCI_iff] at h ⊢
  exact h.trans ((splitNl_mem_part cs l hl).map Char.toLower)

theorem firstAdminLineHit_eq_none {α : Type} {k : List Char → Option α}
    {ls : List (List Char)}
    (h : ∀ l ∈ ls, occursCI "customer admin".toList l = false) :
    firstAdminLineHit k ls = none := by
  induction ls with
  | nil => rfl
  | cons l ls ih =>
    unfold firstAdminLineHit
    rw [h l (List.mem_cons_self l ls)]
    simpa using ih fun l' hl' => h l' (List.mem_cons_of_mem l hl')

/-- If "customer admin" does not occur (case-insensitively) in the cleaned
text, e-mail extraction returns `null`: the primary pattern needs the marker
with a colon, and the fallback needs a line containing the marker. -/
theorem extractCustomerAdminEmail_eq_none {text : List Char}
    (h : occursCI "customer admin".toList (cleanForEmail text) = false) :
    extractCustomerAdminEmail text = none := by
  have hcolon : occursCI "customer admin:".toList (cleanForEmail text) = false := by
    by_contra hc
    rw [Bool.not_eq_false, occursCI_iff] at hc
    have hpre : "customer admin".toList <+: "customer admin:".toList := by decide
    have h2 : occursCI "customer admin".toList (cleanForEmail text) = true :=
      occursCI_iff.mpr (hpre.isInfix.trans hc)
    cases h.symm.trans h2
  have hp : adminEmailPrimary (cleanForEmail text) = none := scanForCI_eq_none hcolon
  have hf : adminEmailFallback (cleanForEmail text) = none := by
    apply firstAdminLineHit_eq_none
    intro l hl
    by_contra hocc
    rw [Bool.not_eq_false] at hocc
    cases h.symm.trans (occursCI_of_mem_splitNl hl hocc)
  simp only [extractCustomerAdminEmail, adminEmailPrimary, adminEmailFallback] at hp hf ⊢
  rw [hp, hf]

/-! ## Step-trace lemmas -/

theorem oppCreateSuccess_shape {env : CrmEnv} {s : Step}
    (h : oppCreateSuccess env s = true) : ∃ d, s = .oppCreateCall d := by
  cases s <;> simp_all [oppCreateSuccess]

theorem createOpportunity_count (env : CrmEnv) (cfg : Config) (today : Nat)
    (c : Option Contact) (a : Account) :
    ((createOpportunity env cfg today c a).1.filter (oppCreateSuccess env)).length
      = if (createOpportunity env cfg today c a).2.isSome then 1 else 0 := by
  simp only [createOpportunity, createOpportunityWithoutCustomFields]
  cases h1 : env.oppCreate (fullOppData cfg today c a) with
  | ok r => cases hr : r.success <;> simp [oppCreateSuccess, h1, hr]
  | error m =>
    by_cases hm : customFieldErrShape m
    · cases h2 : env.oppCreate (baselineOppData today a) with
      | ok r2 => cases hr2 : r2.success <;> simp [oppCreateSuccess, h1, h2, hr2, hm]
      | error m2 => simp [oppCreateSuccess, h1, h2, hm]
    · simp [oppCreateSuccess, h1, hm]

theorem createOpportunity_isSome_of_success (env : CrmEnv) (cfg : Config) (today : Nat)
    (c : Option Contact) (a : Account)
    (hs : ∀ d, ∃ cr, env.oppCreate d = .ok cr ∧ cr.success = true) :
    (createOpportunity env cfg today c a).2.isSome = true := by
  obtain ⟨cr, hcr, hsucc⟩ := hs (fullOppData cfg today c a)
  simp [createOpportunity, hcr, hsucc]

theorem createOpportunity_data (env : CrmEnv) (cfg : Config) (today : Nat)
    (c : Option Contact) (a : Account) :
    ∀ d, Step.oppCreateCall d ∈ (createOpportunity env cfg today c a).1 →
      d.Name = a.Name ++ " - Inbound".toList ∧ d.CloseDate = today + 30 := by
  intro d hd
  simp only [createOpportunity, createOpportunityWithoutCustomFields] at hd
  have hfull : d = fullOppData cfg today c a ∨ d = baselineOppData today a := by
    cases h1 : env.oppCreate (fullOppData cfg today c a) with
    | ok r => rw [h1] at hd; cases hr : r.success <;> simp_all
    | error m =>
      rw [h1] at hd
      by_cases hm : customFieldErrShape m
      · cases h2 : env.oppCreate (baselineOppData today a) with
        | ok r2 => rw [h2] at hd; cases hr2 : r2.success <;> simp_all
        | error m2 => simp_all
      · simp_all
  rcases hfull with rfl | rfl <;> simp [fullOppData, baselineOppData]

theorem createOpportunity_name (env : CrmEnv) (cfg : Config) (today : Nat)
    (c : Option Contact) (a : Account) :
    ∀ o, (createOpportunity env cfg today c a).2 = some o →
      o.name = a.Name ++ " - Inbound".toList := by
  intro o ho
  simp only [createOpportunity, createOpportunityWithoutCustomFields] at ho
  cases h1 : env.oppCreate (fullOppData cfg today c a) with
  | ok r =>
    cases hr : r.success <;> simp [h1, hr] at ho <;> simp [← ho, fullOppData]
  | error m =>
    by_cases hm : customFieldErrShape m
    · cases h2 : env.oppCreate (baselineOppData today a) with
      | ok r2 =>
        cases hr2 : r2.success <;> simp [h1, h2, hm, hr2] at ho <;>
          simp [← ho, baselineOppData]
      | error m2 => simp [h1, h2, hm] at ho
    · simp [h1, hm] at ho

theorem findAccountByDomain_steps (env : CrmEnv) (e : List Char) :
    (findAccountByDomain env e).1 ⊆ [Step.accountWebsite, Step.accountDomainField] := by
  unfold findAccountByDomain
  cases h0 : (splitOnChar '@' e)[1]? with
  | none => simp [h0]
  | some dom =>
    by_cases hd : dom = []
    · simp [h0, hd]
    · cases h2 : env.accountByWebsite dom with
      | some a => simp [h0, hd, h2]
      | none => cases h3 : env.accountByDomainField dom <;> simp [h0, hd, h2, h3]

theorem findAccountByName_steps (env : CrmEnv) (n : List Char) :
    (findAccountByName env n).1 ⊆ [Step.accountNameExact, Step.accountNameLike] := by
  unfold findAccountByName
  cases h1 : env.accountByNameExact n with
  | some a => simp [h1]
  | none => cases h2 : env.accountByNameLike n <;> simp [h1, h2]

theorem findContactByEmailAndAccount_steps (env : CrmEnv) (e aid : List Char) :
    (findContactByEmailAndAccount env e aid).1 ⊆
      [Step.contactOnAccountExact, Step.contactOnAccountScan] := by
  unfold findContactByEmailAndAccount
  cases h1 : env.contactByEmailAndAccount e aid with
  | some c => simp [h1]
  | none => simp [h1]

theorem createContact_steps (env : CrmEnv) (f l e aid : List Char) :
    (createContact env f l e aid).1 ⊆ [Step.contactCreateCall, Step.contactRefetch] := by
  unfold createContact
  cases h1 : env.contactCreate f l e aid with
  | error m => simp [h1]
  | ok r =>
    cases hr : r.success
    · simp [h1, hr]
    · cases h2 : env.contactById r.id with
      | ok oc => cases oc <;> simp [h1, hr, h2]
      | error m => simp [h1, hr, h2]

/-- The CRM calls that contact resolution may perform. -/
def resolutionSteps : List Step :=
  [Step.contactByEmail, Step.accountWebsite, Step.accountDomainField,
   Step.accountNameExact, Step.accountNameLike, Step.contactOnAccountExact,
   Step.contactOnAccountScan, Step.contactCreateCall, Step.contactRefetch]

/-- Every CRM call recorded during contact resolution is a lookup, a contact
creation or a contact re-fetch — never an opportunity creation. -/
theorem resolveContact_steps_sub (env : CrmEnv) (text email : List Char)
    (nm : Option (List Char)) :
    (resolveContact env text email nm).1 ⊆ resolutionSteps := by
  have happ : ∀ {l1 l2 : List Step}, l1 ⊆ resolutionSteps → l2 ⊆ resolutionSteps →
      l1 ++ l2 ⊆ resolutionSteps := fun h1 h2 => List.append_subset.mpr ⟨h1, h2⟩
  have h1 : [Step.contactByEmail] ⊆ resolutionSteps := by simp [resolutionSteps]
  have hnil : ([] : List Step) ⊆ resolutionSteps := by simp
  have hdom : ∀ s2 acc1, findAccountByDomain env email = (s2, acc1) →
      s2 ⊆ resolutionSteps := by
    intro s2 acc1 h
    have := findAccountByDomain_steps env email
    rw [h] at this
    exact this.trans (by simp [resolutionSteps])
  have hname : ∀ n s3 acc2, findAccountByName env n = (s3, acc2) →
      s3 ⊆ resolutionSteps := by
    intro n s3 acc2 h
    have := findAccountByName_steps env n
    rw [h] at this
    exact this.trans (by simp [resolutionSteps])
  have hexist : ∀ aid s4 ex, findContactByEmailAndAccount env email aid = (s4, ex) →
      s4 ⊆ resolutionSteps := by
    intro aid s4 ex h
    have := findContactByEmailAndAccount_steps env email aid
    rw [h] at this
    exact this.trans (by simp [resolutionSteps])
  have hcreate : ∀ f l aid s5 r, createContact env f l email aid = (s5, r) →
      s5 ⊆ resolutionSteps := by
    intro f l aid s5 r h
    have := createContact_steps env f l email aid
    rw [h] at this
    exact this.trans (by simp [resolutionSteps])
  unfold resolveContact
  simp only [findContactByEmail]
  cases hc : env.contactByEmail (lowerL (jsTrim email)) with
  | some c => simp only [hc]; exact h1
  | none =>
    simp only [hc]
    rcases h2 : findAccountByDomain env email with ⟨s2, acc1⟩
    simp only [h2]
    have hs2 := hdom s2 acc1 h2
    cases acc1 with
    | some a =>
      rcases h4 : findContactByEmailAndAccount env email a.Id with ⟨s4, ex⟩
      simp only [h4]
      have hs4 := hexist a.Id s4 ex h4
      cases ex with
      | some ec => exact happ (happ (happ h1 hs2) hnil) hs4
      | none =>
        cases hn : extractCustomerAdminName text with
        | some fl =>
          simp only [hn]
          rcases h5 : createContact env fl.1 fl.2 email a.Id with ⟨s5, newc⟩
          have hs5 := hcreate fl.1 fl.2 a.Id s5 newc h5
          rcases fl with ⟨f0, l0⟩
          simp only [h5]
          cases newc with
          | some c => exact happ (happ (happ (happ h1 hs2) hnil) hs4) hs5
          | none => exact happ (happ (happ (happ h1 hs2) hnil) hs4) hs5
        | none => simp only [hn]; exact happ (happ (happ h1 hs2) hnil) hs4
    | none =>
      cases nm with
      | none => exact happ (happ h1 hs2) hnil
      | some n =>
        by_cases hn : n ≠ []
        · dsimp only
          rw [if_pos hn]
          rcases h3 : findAccountByName env n with ⟨s3, acc2⟩
          simp only [h3]
          have hs3 := hname n s3 acc2 h3
          cases acc2 with
          | some a =>
            rcases h4 : findContactByEmailAndAccount env email a.Id with ⟨s4, ex⟩
            simp only [h4]
            have hs4 := hexist a.Id s4 ex h4
            cases ex with
            | some ec => exact happ (happ (happ h1 hs2) hs3) hs4
            | none =>
              cases hadm : extractCustomerAdminName text with
              | some fl =>
                simp only [hadm]
                rcases h5 : createContact env fl.1 fl.2 email a.Id with ⟨s5, newc⟩
                have hs5 := hcreate fl.1 fl.2 a.Id s5 newc h5
                rcases fl with ⟨f0, l0⟩
                simp only [h5]
                cases newc with
                | some c => exact happ (happ (happ (happ h1 hs2) hs3) hs4) hs5
                | none => exact happ (happ (happ (happ h1 hs2) hs3) hs4) hs5
              | none => simp only [hadm]; exact happ (happ (happ h1 hs2) hs3) hs4
          | none => exact happ (happ h1 hs2) hs3
        · dsimp only
          rw [if_neg hn]
          exact happ (happ h1 hs2) hnil

theorem occursL_infixR {pat m : List Char} (x : List Char) (h : occursL pat m = true) :
    occursL pat (x ++ m) = true := by
  rw [occursL_eq_true_iff] at h ⊢
  exact h.trans (List.suffix_append x m).isInfix

theorem occursL_self_pre (pat y : List Char) : occursL pat (pat ++ y) = true := by
  rw [occursL_eq_true_iff]
  exact (List.prefix_append pat y).isInfix

theorem occursL_refl (pat : List Char) : occursL pat pat = true :=
  occursL_eq_true_iff.mpr (List.infix_refl pat)

/-- A successful retry's note is quoted verbatim in the opportunity-created
reply. -/
theorem replyOppCreated_contains_note (cfg : Config) (contact : Contact)
    (account : Account) (o : OppResult) (ctd : Bool) (n : List Char)
    (h : o.note = some n) :
    occursL n (replyOppCreated cfg contact account o ctd) = true := by
  rw [occursL_eq_true_iff]
  refine ⟨"*Opportunity Created!*\n\n".toList ++ "*Account:* <".toList ++
    accountUrl cfg account ++ "|".toList ++ account.Name ++ ">\n".toList ++
    "*Account Type:* Prospect\n".toList ++ "*Contact:* <".toList ++
    contactUrl cfg contact ++ "|".toList ++ contact.Name ++ ">".toList ++
    (if ctd then " _(newly created)_".toList else []) ++
    "\n*Opportunity:* <".toList ++ o.url ++ "|".toList ++ o.name ++ ">".toList ++
    "\n\n".toList,
    "\n\n<@".toList ++ cfg.customerTagUser ++
      "> - new prospect opportunity created for review.".toList, ?_⟩
  simp [replyOppCreated, h, List.append_assoc]

/-- The failure reply asks for manual opportunity creation. -/
theorem replyOppFailed_contains_manual (cfg : Config) (contact : Contact)
    (account : Account) :
    occursL "Please create the opportunity manually.".toList
      (replyOppFailed cfg contact account) = true := by
  rw [occursL_eq_true_iff]
  refine ⟨"Failed to create opportunity for ".toList ++ account.Name ++ ".\n".toList ++
    "*Account:* <".toList ++ accountUrl cfg account ++ "|".toList ++ account.Name ++
    ">\n".toList ++ "*Contact:* <".toList ++ contactUrl cfg contact ++ "|".toList ++
    contact.Name ++ ">\n\n".toList, [], ?_⟩
  simp [replyOppFailed, List.append_assoc]

theorem resolveContact_filter_opp (env : CrmEnv) (text email : List Char)
    (nm : Option (List Char)) :
    (resolveContact env text email nm).1.filter (oppCreateSuccess env) = [] := by
  rw [List.filter_eq_nil_iff]
  intro s hs
  have h := resolveContact_steps_sub env text email nm hs
  simp only [resolutionSteps, List.mem_cons, List.mem_singleton] at h
  rcases h with rfl|rfl|rfl|rfl|rfl|rfl|rfl|rfl|h
  on_goal 9 => simp at h; subst h
  all_goals simp [oppCreateSuccess]

theorem resolveContact_no_oppCall (env : CrmEnv) (text email : List Char)
    (nm : Option (List Char)) (d : OppData) :
    Step.oppCreateCall d ∉ (resolveContact env text email nm).1 := by
  intro hd
  have h := resolveContact_steps_sub env text email nm hd
  simp [resolutionSteps] at h

theorem findActiveGongSubscription_steps (env : CrmEnv) (cfg : Config) (aid : List Char) :
    (findActiveGongSubscription env cfg aid).1 = [] ∨
    (findActiveGongSubscription env cfg aid).1 = [Step.subscriptionCall] := by
  unfold findActiveGongSubscription
  cases cfg.gongResellerAccountId <;> simp

/-- The per-message specification the claim theorems draw on: creation count,
prospect-only gating, the contents of every opportunity-create call, and the
reply contents. -/
def HandlerSpec (env : CrmEnv) (today : Nat) (r : HandlerResult) : Prop :=
  (oppsCreated env r = if r.opp.isSome then 1 else 0) ∧
  (r.opp.isSome = true → r.contact.isSome = true ∧
    ∃ a, r.account = some a ∧ lowerL (accountTypeOf a) = "prospect".toList) ∧
  (∀ a, r.account = some a → lowerL (accountTypeOf a) = "prospect".toList →
    r.contact.isSome = true ∧
    ∃ c cfg2, r.opp = (createOpportunity env cfg2 today (some c) a).2) ∧
  (∀ d, Step.oppCreateCall d ∈ r.steps →
    ∃ a, r.account = some a ∧ d.Name = a.Name ++ " - Inbound".toList ∧
      d.CloseDate = today + 30) ∧
  (∀ o, r.opp = some o → ∃ a, r.account = some a ∧
    o.name = a.Name ++ " - Inbound".toList) ∧
  (∀ o n, r.opp = some o → o.note = some n →
    ∃ rep ∈ r.replies, occursL n rep = true) ∧
  (∀ a, r.account = some a → lowerL (accountTypeOf a) = "prospect".toList →
    r.opp = none →
    ∃ rep ∈ r.replies,
      occursL "Please create the opportunity manually.".toList rep = true)

theorem handlerSpec_plain (env : CrmEnv) (today : Nat)
    (reps reacts : List (List Char)) (rs : List Step) (cnt : Option Contact) (ctd : Bool)
    (hrs : rs.filter (oppCreateSuccess env) = [])
    (hno : ∀ d, Step.oppCreateCall d ∉ rs) :
    HandlerSpec env today
      { replies := reps, reactions := reacts, steps := rs, contact := cnt,
        account := none, contactCreated := ctd, opp := none } := by
  refine ⟨?_, by simp, by simp, ?_, by simp, by simp, by simp⟩
  · simp [oppsCreated, hrs]
  · intro d hd
    exact absurd hd (hno d)

theorem handlerSpec_customer (env : CrmEnv) (today : Nat)
    (reps reacts : List (List Char)) (rs as2 ss : List Step)
    (cnt : Contact) (a : Account) (ctd : Bool)
    (hrs : rs.filter (oppCreateSuccess env) = [])
    (hno : ∀ d, Step.oppCreateCall d ∉ rs)
    (has2 : as2 = [] ∨ as2 = [Step.accountByIdCall])
    (hss : ss = [] ∨ ss = [Step.subscriptionCall])
    (hna : ¬ lowerL (accountTypeOf a) = "prospect".toList) :
    HandlerSpec env today
      { replies := reps, reactions := reacts, steps := rs ++ as2 ++ ss,
        contact := some cnt, account := some a, contactCreated := ctd, opp := none } := by
  refine ⟨?_, by simp, ?_, ?_, by simp, by simp, ?_⟩
  · simp only [oppsCreated, List.filter_append, hrs]
    rcases has2 with rfl | rfl <;> rcases hss with rfl | rfl <;>
      simp [oppCreateSuccess]
  · intro a' ha' hpro
    simp only [Option.some_inj] at ha'
    subst ha'
    exact absurd hpro hna
  · intro d hd
    rcases List.mem_append.mp hd with hd | hd
    · rcases List.mem_append.mp hd with hd | hd
      · exact absurd hd (hno d)
      · rcases has2 with rfl | rfl <;> simp at hd
    · rcases hss with rfl | rfl <;> simp at hd
  · intro a' ha' hpro _
    simp only [Option.some_inj] at ha'
    subst ha'
    exact absurd hpro hna

theorem handlerSpec_prospect_some (env : CrmEnv) (today : Nat) (cfg2 : Config)
    (reacts : List (List Char)) (rs as2 : List Step)
    (contact : Contact) (account : Account) (ctd : Bool) (opp : OppResult)
    (hrs : rs.filter (oppCreateSuccess env) = [])
    (hno : ∀ d, Step.oppCreateCall d ∉ rs)
    (has2 : as2 = [] ∨ as2 = [Step.accountByIdCall])
    (hpro : lowerL (accountTypeOf account) = "prospect".toList)
    (hopp : (createOpportunity env cfg2 today (some contact) account).2 = some opp) :
    HandlerSpec env today
      { replies := [replyOppCreated cfg2 contact account opp ctd], reactions := reacts,
        steps := rs ++ as2 ++ (createOpportunity env cfg2 today (some contact) account).1,
        contact := some contact, account := some account, contactCreated := ctd,
        opp := some opp } := by
  refine ⟨?_, ?_, ?_, ?_, ?_, ?_, ?_⟩
  · have hc := createOpportunity_count env cfg2 today (some contact) account
    rw [hopp] at hc
    simp only [Option.isSome_some, if_true] at hc
    simp only [oppsCreated, List.filter_append, List.length_append, hrs]
    rcases has2 with rfl | rfl <;> simp [oppCreateSuccess, hc]
  · intro _
    exact ⟨rfl, account, rfl, hpro⟩
  · intro a' ha' _
    simp only [Option.some_inj] at ha'
    subst ha'
    exact ⟨rfl, contact, cfg2, hopp.symm⟩
  · intro d hd
    rcases List.mem_append.mp hd with hd | hd
    · rcases List.mem_append.mp hd with hd | hd
      · exact absurd hd (hno d)
      · rcases has2 with rfl | rfl <;> simp at hd
    · exact ⟨account, rfl, createOpportunity_data env cfg2 today (some contact) account d hd⟩
  · intro o ho
    simp only [Option.some_inj] at ho
    rw [← ho]
    exact ⟨account, rfl, createOpportunity_name env cfg2 today (some contact) account opp hopp⟩
  · intro o n ho hn
    simp only [Option.some_inj] at ho
    rw [← ho] at hn
    exact ⟨replyOppCreated cfg2 contact account opp ctd, List.mem_singleton.mpr rfl,
      replyOppCreated_contains_note cfg2 contact account opp ctd n hn⟩
  · intro a' _ _ hnone
    simp at hnone

theorem handlerSpec_prospect_none (env : CrmEnv) (today : Nat) (cfg2 : Config)
    (reacts : List (List Char)) (rs as2 : List Step)
    (contact : Contact) (account : Account) (ctd : Bool)
    (hrs : rs.filter (oppCreateSuccess env) = [])
    (hno : ∀ d, Step.oppCreateCall d ∉ rs)
    (has2 : as2 = [] ∨ as2 = [Step.accountByIdCall])
    (hpro : lowerL (accountTypeOf account) = "prospect".toList)
    (hopp : (createOpportunity env cfg2 today (some contact) account).2 = none) :
    HandlerSpec env today
      { replies := [replyOppFailed cfg2 contact account], reactions := reacts,
        steps := rs ++ as2 ++ (createOpportunity env cfg2 today (some contact) account).1,
        contact := some contact, account := some account, contactCreated := ctd,
        opp := none } := by
  refine ⟨?_, by simp, ?_, ?_, by simp, by simp, ?_⟩
  · have hc := createOpportunity_count env cfg2 today (some contact) account
    rw [hopp] at hc
    simp only [Option.isSome_none, if_false] at hc
    simp only [oppsCreated, List.filter_append, List.length_append, hrs]
    rcases has2 with rfl | rfl <;> simp [oppCreateSuccess, hc]
  · intro a' ha' _
    simp only [Option.some_inj] at ha'
    subst ha'
    exact ⟨rfl, contact, cfg2, hopp.symm⟩
  · intro d hd
    rcases List.mem_append.mp hd with hd | hd
    · rcases List.mem_append.mp hd with hd | hd
      · exact absurd hd (hno d)
      · rcases has2 with rfl | rfl <;> simp at hd
    · exact ⟨account, rfl, createOpportunity_data env cfg2 today (some contact) account d hd⟩
  · intro a' _ _ _
    exact ⟨replyOppFailed cfg2 contact account, List.mem_singleton.mpr rfl,
      replyOppFailed_contains_manual cfg2 contact account⟩

theorem handleMessage_spec (cfg : Config) (env : CrmEnv) (today : Nat)
    (msg : SlackMessage) :
    HandlerSpec env today (handleMessage cfg env today msg) := by
  have hplainE : HandlerSpec env today emptyResult :=
    handlerSpec_plain env today [] [] [] none false rfl (by simp)
  unfold handleMessage
  by_cases h1 : msg.subtype = some "message_changed".toList
  · rw [if_pos h1]; exact hplainE
  rw [if_neg h1]
  by_cases h2 : msg.channel ≠ cfg.licenseRequestChannel
  · rw [if_pos h2]; exact hplainE
  rw [if_neg h2]
  by_cases h3 : ¬ occursL "New ChiliPiper License Request Submitted!".toList msg.text
  · rw [if_pos h3]; exact hplainE
  rw [if_neg h3]
  cases he : extractCustomerAdminEmail msg.text with
  | none =>
    simp only [he]
    exact handlerSpec_plain env today _ _ [] none false rfl (by simp)
  | some ce =>
    simp only [he]
    by_cases h4 : env.sfConnected = false ∧ env.initOk = false
    · rw [if_pos h4]
      exact handlerSpec_plain env today _ _ [] none false rfl (by simp)
    rw [if_neg h4]
    generalize (if env.sfConnected then cfg
      else { cfg with gongResellerAccountId :=
        (cfg.gongResellerAccountId).orElse fun _ => env.gongLookup }) = cfg2
    rcases hr : resolveContact env msg.text ce (extractCustomerName msg.text) with ⟨rs, outcome⟩
    have hrs : rs.filter (oppCreateSuccess env) = [] := by
      have h := resolveContact_filter_opp env msg.text ce (extractCustomerName msg.text)
      rw [hr] at h
      exact h
    have hno : ∀ d, Step.oppCreateCall d ∉ rs := by
      intro d hd
      have h := resolveContact_no_oppCall env msg.text ce (extractCustomerName msg.text) d
      rw [hr] at h
      exact h hd
    have hnoA : ∀ d, Step.oppCreateCall d ∉ rs ++ [Step.accountByIdCall] := by
      intro d hd
      rcases List.mem_append.mp hd with hd | hd
      · exact hno d hd
      · simp at hd
    have hrsA : (rs ++ [Step.accountByIdCall]).filter (oppCreateSuccess env) = [] := by
      simp [List.filter_append, hrs, oppCreateSuccess]
    simp only [hr]
    cases outcome with
    | noAccount => exact handlerSpec_plain env today _ _ rs none false hrs hno
    | noAdminName a => exact handlerSpec_plain env today _ _ rs none false hrs hno
    | contactFailed => exact handlerSpec_plain env today _ _ rs none false hrs hno
    | success contact ctd =>
      cases hca : contact.Account with
      | some a0 =>
        simp only [hca]
        by_cases hpro : lowerL (accountTypeOf a0) = "prospect".toList
        · rw [if_pos hpro]
          rcases hco : createOpportunity env cfg2 today (some contact) a0 with ⟨os, oppRep⟩
          simp only [hco]
          cases oppRep with
          | some opp =>
            have hopp2 : (createOpportunity env cfg2 today (some contact) a0).2 = some opp := by
              rw [hco]
            have h := handlerSpec_prospect_some env today cfg2
              (["eyes".toList] ++ ["white_check_mark".toList]) rs [] contact a0 ctd opp
              hrs hno (Or.inl rfl) hpro hopp2
            rw [hco] at h
            simpa using h
          | none =>
            have hopp2 : (createOpportunity env cfg2 today (some contact) a0).2 = none := by
              rw [hco]
            have h := handlerSpec_prospect_none env today cfg2
              (["eyes".toList]) rs [] contact a0 ctd
              hrs hno (Or.inl rfl) hpro hopp2
            rw [hco] at h
            simpa using h
        · rw [if_neg hpro]
          rcases hsub : findActiveGongSubscription env cfg2 a0.Id with ⟨ss, sub⟩
          simp only [hsub]
          have hss : ss = [] ∨ ss = [Step.subscriptionCall] := by
            have h := findActiveGongSubscription_steps env cfg2 a0.Id
            rw [hsub] at h
            exact h
          have h := handlerSpec_customer env today
            [replyCustomer cfg2 contact a0 (accountTypeOf a0) sub ctd]
            (["eyes".toList] ++ ["information_source".toList]) rs [] ss contact a0 ctd
            hrs hno (Or.inl rfl) hss hpro
          simpa using h
      | none =>
        simp only [hca]
        cases hai : contact.AccountId with
        | none =>
          simp only [hai]
          exact handlerSpec_plain env today _ _ (rs ++ [Step.accountByIdCall])
            (some contact) ctd hrsA hnoA
        | some aid =>
          simp only [hai]
          cases haa : env.accountById aid with
          | none =>
            simp only [haa]
            exact handlerSpec_plain env today _ _ (rs ++ [Step.accountByIdCall])
              (some contact) ctd hrsA hnoA
          | some a0 =>
            simp only [haa]
            by_cases hpro : lowerL (accountTypeOf a0) = "prospect".toList
            · rw [if_pos hpro]
              rcases hco : createOpportunity env cfg2 today (some contact) a0 with ⟨os, oppRep⟩
              simp only [hco]
              cases oppRep with
              | some opp =>
                have hopp2 : (createOpportunity env cfg2 today (some contact) a0).2
                    = some opp := by rw [hco]
                have h := handlerSpec_prospect_some env today cfg2
                  (["eyes".toList] ++ ["white_check_mark".toList]) rs
                  [Step.accountByIdCall] contact a0 ctd opp
                  hrs hno (Or.inr rfl) hpro hopp2
                rw [hco] at h
                simpa using h
              | none =>
                have hopp2 : (createOpportunity env cfg2 today (some contact) a0).2
                    = none := by rw [hco]
                have h := handlerSpec_prospect_none env today cfg2
                  (["eyes".toList]) rs [Step.accountByIdCall] contact a0 ctd
                  hrs hno (Or.inr rfl) hpro hopp2
                rw [hco] at h
                simpa using h
            · rw [if_neg hpro]
              rcases hsub : findActiveGongSubscription env cfg2 a0.Id with ⟨ss, sub⟩
              simp only [hsub]
              have hss : ss = [] ∨ ss = [Step.subscriptionCall] := by
                have h := findActiveGongSubscription_steps env cfg2 a0.Id
                rw [hsub] at h
                exact h
              have h := handlerSpec_customer env today
                [replyCustomer cfg2 contact a0 (accountTypeOf a0) sub ctd]
                (["eyes".toList] ++ ["information_source".toList]) rs
                [Step.accountByIdCall] ss contact a0 ctd
                hrs hno (Or.inr rfl) hss hpro
              simpa using h

/-! ## Claim theorems -/

/-- C5: the query wrapper retries exactly once.  On an error whose message
indicates an invalid or expired session it invalidates the cached session,
re-authenticates, and re-runs the whole sequence once — the second outcome,
success or failure, is final; no call ever makes more than two attempts.
Record creation (`createContact`, `createOpportunity`) goes directly through
the connection: the contact create is issued exactly once whatever happens,
an error message makes `createContact` return `null` without any retry, and
a session-shaped (non-schema) error on the opportunity create likewise ends
`createOpportunity` after its single call. -/
theorem c5_query_retry_creates_direct :
    (∀ qenv : QueryEnv, ∀ m, qenv.attempt 0 = .error m → sessionErrShape m = true →
      qenv.reconnectOk = true →
      sfQuery qenv = { result := qenv.attempt 1, attempts := 2, reconnects := 1 }) ∧
    (∀ qenv : QueryEnv, (sfQuery qenv).attempts ≤ 2) ∧
    (∀ (env : CrmEnv) (f l e aid : List Char),
      ((createContact env f l e aid).1.filter (fun s => s = Step.contactCreateCall)).length
        = 1) ∧
    (∀ (env : CrmEnv) (f l e aid m : List Char), env.contactCreate f l e aid = .error m →
      createContact env f l e aid = ([Step.contactCreateCall], none)) ∧
    (∀ (env : CrmEnv) (cfg : Config) (today : Nat) (c : Option Contact) (a : Account)
        (m : List Char),
      env.oppCreate (fullOppData cfg today c a) = .error m →
      sessionErrShape m = true → customFieldErrShape m = false →
      createOpportunity env cfg today c a
        = ([Step.oppCreateCall (fullOppData cfg today c a)], none)) := by
  refine ⟨?_, ?_, ?_, ?_, ?_⟩
  · intro qenv m h0 hshape hrec
    unfold sfQuery
    simp only [h0, hshape, hrec, if_true]
    cases h1 : qenv.attempt 1 <;> simp [h1]
  · intro qenv
    unfold sfQuery
    cases h0 : qenv.attempt 0 with
    | ok r => simp [h0]
    | error m =>
      by_cases hs : sessionErrShape m
      · by_cases hr : qenv.reconnectOk
        · simp only [h0, hs, hr, if_true]
          cases h1 : qenv.attempt 1 <;> simp [h1]
        · simp [h0, hs, hr]
      · simp [h0, hs]
  · intro env f l e aid
    unfold createContact
    cases h1 : env.contactCreate f l e aid with
    | error m => simp [h1]
    | ok r =>
      cases hr : r.success
      · simp [h1, hr]
      · cases h2 : env.contactById r.id with
        | ok oc => cases oc <;> simp [h1, hr, h2]
        | error m => simp [h1, hr, h2]
  · intro env f l e aid m h
    unfold createContact
    simp [h]
  · intro env cfg today c a m h hs hcf
    unfold createOpportunity
    simp [h, hcf]

/-- C10: the retry trigger is a plain case-sensitive substring test, so ANY
error whose message contains lower-case "invalid" — session-related or not —
causes the wrapper to drop the cached session, re-authenticate, and re-run
the query once before the (possibly identical) failure propagates. -/
theorem c10_invalid_substring_triggers_retry (qenv : QueryEnv) (m : List Char)
    (h0 : qenv.attempt 0 = .error m) (hm : occursL "invalid".toList m = true)
    (hrec : qenv.reconnectOk = true) :
    (sfQuery qenv).attempts = 2 ∧ (sfQuery qenv).reconnects = 1 ∧
    (sfQuery qenv).result = qenv.attempt 1 := by
  have hshape : sessionErrShape m = true := by
    unfold sessionErrShape
    rw [hm]
    simp
  unfold sfQuery
  simp only [h0, hshape, hrec, if_true]
  cases h1 : qenv.attempt 1 <;> simp [h1]

/-- C1: per handled message, at most one opportunity is ever created, and —
whenever the CRM accepts creation requests — exactly one opportunity is
created if and only if a contact and an account were both resolved and the
account's classification compares case-insensitively equal to "prospect";
for any other or missing classification the count is zero. -/
theorem c1_opportunity_iff_prospect (cfg : Config) (env : CrmEnv) (today : Nat)
    (msg : SlackMessage) :
    oppsCreated env (handleMessage cfg env today msg) ≤ 1 ∧
    ((∀ d, ∃ cr, env.oppCreate d = .ok cr ∧ cr.success = true) →
      (oppsCreated env (handleMessage cfg env today msg) = 1 ↔
        (handleMessage cfg env today msg).contact.isSome = true ∧
        ∃ a, (handleMessage cfg env today msg).account = some a ∧
          lowerL (accountTypeOf a) = "prospect".toList)) := by
  obtain ⟨hcount, hfwd, hbwd, _, _, _, _⟩ := handleMessage_spec cfg env today msg
  constructor
  · rw [hcount]
    split <;> simp
  · intro hs
    rw [hcount]
    constructor
    · intro h1
      have hsome : (handleMessage cfg env today msg).opp.isSome = true := by
        cases hx : (handleMessage cfg env today msg).opp.isSome
        · rw [hx] at h1
          simp at h1
        · rfl
      exact hfwd hsome
    · rintro ⟨hc, a, ha, hpro⟩
      obtain ⟨_, c, cfg2, hopp⟩ := hbwd a ha hpro
      have hi := createOpportunity_isSome_of_success env cfg2 today (some c) a hs
      rw [← hopp] at hi
      rw [hi]
      simp

/-- C4: every opportunity-create call issued while handling a message — on
the full-field path and on the reduced-field retry alike — carries
`Name = "<resolved account's name> - Inbound"` and a close date 30 days
after the creation day, and a successfully created opportunity reports that
same name. -/
theorem c4_opportunity_name_closedate (cfg : Config) (env : CrmEnv) (today : Nat)
    (msg : SlackMessage) (a : Account)
    (ha : (handleMessage cfg env today msg).account = some a) :
    (∀ d, Step.oppCreateCall d ∈ (handleMessage cfg env today msg).steps →
      d.Name = a.Name ++ " - Inbound".toList ∧ d.CloseDate = today + 30) ∧
    (∀ o, (handleMessage cfg env today msg).opp = some o →
      o.name = a.Name ++ " - Inbound".toList) := by
  obtain ⟨_, _, _, hdata, hname, _, _⟩ := handleMessage_spec cfg env today msg
  constructor
  · intro d hmem
    obtain ⟨a', ha', hprops⟩ := hdata d hmem
    rw [ha] at ha'
    simp only [Option.some_inj] at ha'
    rw [ha']
    exact hprops
  · intro o ho
    obtain ⟨a', ha', hnm⟩ := hname o ho
    rw [ha] at ha'
    simp only [Option.some_inj] at ha'
    rw [ha']
    exact hnm

/-- C6: a creation error naming a missing custom field triggers exactly one
retry with only the baseline fields (Name, AccountId, StageName, CloseDate,
Type, LeadSource — every custom field omitted); a successful retry carries
the manual-follow-up note and the handler quotes that note in its reply; any
other creation failure (a thrown non-schema error) yields no opportunity and
the handler replies asking for manual opportunity creation. -/
theorem c6_custom_field_fallback :
    (∀ (env : CrmEnv) (cfg : Config) (today : Nat) (c : Option Contact) (a : Account)
        (m : List Char),
      env.oppCreate (fullOppData cfg today c a) = .error m →
      customFieldErrShape m = true →
      createOpportunity env cfg today c a
        = (Step.oppCreateCall (fullOppData cfg today c a)
            :: (createOpportunityWithoutCustomFields env cfg today c a).1,
           (createOpportunityWithoutCustomFields env cfg today c a).2)) ∧
    (∀ (today : Nat) (a : Account),
      (baselineOppData today a).Won_Lost_Reason__c = none ∧
      (baselineOppData today a).Main_Competitor__c = none ∧
      (baselineOppData today a).MSA_Redlines__c = none ∧
      (baselineOppData today a).BillingAccount__c = none ∧
      (baselineOppData today a).OnBoarding_Contact__c = none ∧
      (baselineOppData today a).Primary_Contact__c = none) ∧
    (∀ (env : CrmEnv) (cfg : Config) (today : Nat) (c : Option Contact) (a : Account)
        (r : CreateResult),
      env.oppCreate (baselineOppData today a) = .ok r → r.success = true →
      (createOpportunityWithoutCustomFields env cfg today c a).2
        = some { id := r.id, name := a.Name ++ " - Inbound".toList,
                 url := opportunityUrl cfg r.id, note := some oppFallbackNote }) ∧
    (∀ (cfg : Config) (env : CrmEnv) (today : Nat) (msg : SlackMessage)
        (o : OppResult) (n : List Char),
      (handleMessage cfg env today msg).opp = some o → o.note = some n →
      ∃ rep ∈ (handleMessage cfg env today msg).replies, occursL n rep = true) ∧
    (∀ (cfg : Config) (env : CrmEnv) (today : Nat) (msg : SlackMessage) (a : Account),
      (handleMessage cfg env today msg).account = some a →
      lowerL (accountTypeOf a) = "prospect".toList →
      (handleMessage cfg env today msg).opp = none →
      ∃ rep ∈ (handleMessage cfg env today msg).replies,
        occursL "Please create the opportunity manually.".toList rep = true) ∧
    (∀ (env : CrmEnv) (cfg : Config) (today : Nat) (c : Option Contact) (a : Account)
        (m : List Char),
      env.oppCreate (fullOppData cfg today c a) = .error m →
      customFieldErrShape m = false →
      createOpportunity env cfg today c a
        = ([Step.oppCreateCall (fullOppData cfg today c a)], none)) := by
  refine ⟨?_, ?_, ?_, ?_, ?_, ?_⟩
  · intro env cfg today c a m h hcf
    unfold createOpportunity
    simp [h, hcf]
  · intro today a
    exact ⟨rfl, rfl, rfl, rfl, rfl, rfl⟩
  · intro env cfg today c a r h hr
    unfold createOpportunityWithoutCustomFields
    simp [h, hr]
    rfl
  · intro cfg env today msg o n ho hn
    obtain ⟨_, _, _, _, _, hnote, _⟩ := handleMessage_spec cfg env today msg
    exact hnote o n ho hn
  · intro cfg env today msg a ha hpro hnone
    obtain ⟨_, _, _, _, _, _, hman⟩ := handleMessage_spec cfg env today msg
    exact hman a ha hpro hnone
  · intro env cfg today c a m h hcf
    unfold createOpportunity
    simp [h, hcf]

/-- C7: in the opportunity payload assembled by `createOpportunity`, the
billing-account reference equals exactly the cached Gong-reseller account id
— populated if and only if the cache is set — and an unset cache does not
block creation: the payload simply omits the reference and a CRM acceptance
still yields an opportunity. -/
theorem c7_billing_account_iff_cached (cfg : Config) (today : Nat)
    (c : Option Contact) (a : Account) :
    (fullOppData cfg today c a).BillingAccount__c = cfg.gongResellerAccountId ∧
    ((fullOppData cfg today c a).BillingAccount__c.isSome = true ↔
      cfg.gongResellerAccountId.isSome = true) ∧
    (∀ (env : CrmEnv) (r : CreateResult), cfg.gongResellerAccountId = none →
      env.oppCreate (fullOppData cfg today c a) = .ok r → r.success = true →
      (createOpportunity env cfg today c a).2.isSome = true) := by
  refine ⟨rfl, Iff.rfl, ?_⟩
  intro env r _ h hr
  unfold createOpportunity
  simp [h, hr]

/-- C9: when "customer admin" does not occur (case-insensitively, after the
markup normalization the extractor itself applies) in a qualifying message,
e-mail extraction returns `null` and the handler stops with the single
manual-handling reply: no CRM call of any kind is made — in particular no
record is created — and, the model being a total function, no exception
escapes. -/
theorem c9_no_marker_manual_reply (cfg : Config) (env : CrmEnv) (today : Nat)
    (msg : SlackMessage)
    (h1 : msg.subtype ≠ some "message_changed".toList)
    (h2 : msg.channel = cfg.licenseRequestChannel)
    (h3 : occursL "New ChiliPiper License Request Submitted!".toList msg.text = true)
    (h4 : occursCI "customer admin".toList (cleanForEmail msg.text) = false) :
    extractCustomerAdminEmail msg.text = none ∧
    handleMessage cfg env today msg
      = { emptyResult with reactions := ["eyes".toList], replies := [replyNoEmail] } ∧
    (handleMessage cfg env today msg).steps = [] ∧
    oppsCreated env (handleMessage cfg env today msg) = 0 := by
  have hex : extractCustomerAdminEmail msg.text = none :=
    extractCustomerAdminEmail_eq_none h4
  have hmain : handleMessage cfg env today msg
      = { emptyResult with reactions := ["eyes".toList], replies := [replyNoEmail] } := by
    unfold handleMessage
    rw [if_neg h1, if_neg (fun hne => hne h2), if_neg (fun hcon => hcon h3)]
    simp [hex]
  refine ⟨hex, hmain, ?_, ?_⟩
  · rw [hmain]
    rfl
  · rw [hmain]
    simp [oppsCreated, emptyResult]

/-! ## Clean-up identity and span lemmas (for the name-extraction claim) -/

theorem isNameChar_props {c : Char} (h : isNameChar c = true) :
    c ≠ '<' ∧ c ≠ '*' ∧ isWs c = false := by
  refine ⟨?_, ?_, ?_⟩
  · rintro rfl
    exact absurd h (by decide)
  · rintro rfl
    exact absurd h (by decide)
  · by_contra hws
    rw [Bool.not_eq_false] at hws
    simp only [isWs, Bool.or_eq_true, decide_eq_true_eq] at hws
    rcases hws with ((rfl | rfl) | rfl) | rfl <;> exact absurd h (by decide)

theorem mailtoPrefix_false {c : Char} (cs : List Char) (hc : c ≠ '<') :
    ¬ ("<mailto:".toList.isPrefixOf (c :: cs) = true) := by
  intro hp
  rw [List.isPrefixOf_iff_prefix] at hp
  rw [show ("<mailto:".toList : List Char) = '<' :: "mailto:".toList from rfl,
    List.cons_prefix_cons] at hp
  exact hc hp.1.symm

theorem mailtoDispAt_none {c : Char} {cs : List Char} (hc : c ≠ '<') :
    mailtoDispAt (c :: cs) = none := by
  unfold mailtoDispAt
  rw [if_neg (mailtoPrefix_false cs hc)]

theorem mailtoPlainAt_none {c : Char} {cs : List Char} (hc : c ≠ '<') :
    mailtoPlainAt (c :: cs) = none := by
  unfold mailtoPlainAt
  rw [if_neg (mailtoPrefix_false cs hc)]

theorem bracketAt_none {c : Char} {cs : List Char} (hc : c ≠ '<') :
    bracketAt (c :: cs) = none := by
  unfold bracketAt
  split
  · next t heq =>
    injection heq with h1 _
    exact absurd h1 hc
  · rfl

theorem replGo_id {m : List Char → Option (List Char × List Char)}
    (hm : ∀ (c : Char) (cs' : List Char), c ≠ '<' → m (c :: cs') = none) :
    ∀ (fuel : Nat) (cs : List Char), (∀ c ∈ cs, c ≠ '<') → replGo m fuel cs = cs := by
  intro fuel
  induction fuel with
  | zero => intro cs _; rfl
  | succ n ih =>
    intro cs hcs
    cases cs with
    | nil => rfl
    | cons c cs' =>
      unfold replGo
      rw [hm c cs' (hcs c (List.mem_cons_self c cs'))]
      rw [ih cs' fun x hx => hcs x (List.mem_cons_of_mem c hx)]

theorem repl_id {m : List Char → Option (List Char × List Char)}
    (hm : ∀ (c : Char) (cs' : List Char), c ≠ '<' → m (c :: cs') = none)
    (cs : List Char) (hcs : ∀ c ∈ cs, c ≠ '<') : repl m cs = cs :=
  replGo_id hm cs.length cs hcs

theorem removeStars_id {cs : List Char} (h : ∀ c ∈ cs, c ≠ '*') :
    removeStars cs = cs := by
  unfold removeStars
  rw [List.filter_eq_self.mpr]
  intro a ha
  simpa using h a ha

/-- On text containing no `<` and no `*`, the name extractor's markup
clean-up is the identity. -/
theorem cleanForName_id {cs : List Char} (hlt : ∀ c ∈ cs, c ≠ '<')
    (hst : ∀ c ∈ cs, c ≠ '*') : cleanForName cs = cs := by
  unfold cleanForName replMailtoDispKeepDisp replMailtoPlainDrop replBracketDrop
  rw [repl_id (fun c cs' hc => by rw [mailtoDispAt_none hc]; rfl) cs hlt,
    repl_id (fun c cs' hc => by rw [mailtoPlainAt_none hc]; rfl) cs hlt,
    repl_id (fun c cs' hc => by rw [bracketAt_none hc]; rfl) cs hlt,
    removeStars_id hst]

theorem span_exact {p : Char → Bool} {f : List Char} (hf : ∀ c ∈ f, p c = true)
    {c : Char} {cs' : List Char} (hc : p c = false) :
    (f ++ c :: cs').takeWhile p = f ∧ (f ++ c :: cs').dropWhile p = c :: cs' := by
  constructor
  · rw [List.takeWhile_append_of_pos (by simpa using hf)]
    simp [List.takeWhile_cons, hc]
  · rw [List.dropWhile_append_of_pos (by simpa using hf)]
    simp [List.dropWhile_cons, hc]

/-- The strict name pattern's continuation accepts any two nonempty runs of
name characters (accented Latin letters, hyphens, apostrophes included) that
immediately precede an e-mail address, returning both tokens intact. -/
theorem adminNameStrictTail_generic (f0 l0 : Char) (fr lr : List Char)
    (hfn : ∀ c ∈ f0 :: fr, isNameChar c = true)
    (hln : ∀ c ∈ l0 :: lr, isNameChar c = true) :
    adminNameStrictTail
        (' ' :: ((f0 :: fr) ++ ' ' :: ((l0 :: lr) ++ ' ' :: "jane@x.com".toList)))
      = some (f0 :: fr, l0 :: lr) := by
  have hwsF : ∀ c ∈ f0 :: fr, isWs c = false :=
    fun c hc => (isNameChar_props (hfn c hc)).2.2
  have hwsL : ∀ c ∈ l0 :: lr, isWs c = false :=
    fun c hc => (isNameChar_props (hln c hc)).2.2
  have e1 : (' ' :: ((f0 :: fr) ++ ' ' :: ((l0 :: lr) ++ ' ' :: "jane@x.com".toList))).dropWhile
      isWs = (f0 :: fr) ++ ' ' :: ((l0 :: lr) ++ ' ' :: "jane@x.com".toList) := by
    rw [List.dropWhile_cons]
    simp only [show isWs ' ' = true from rfl, if_true]
    rw [List.cons_append, List.dropWhile_cons]
    simp [hwsF f0 (List.mem_cons_self f0 fr)]
  have e2 := @span_exact isNameChar (f0 :: fr) hfn ' '
    ((l0 :: lr) ++ ' ' :: "jane@x.com".toList) (by decide)
  have e4 : (' ' :: ((l0 :: lr) ++ ' ' :: "jane@x.com".toList)).takeWhile isWs = [' '] := by
    rw [List.takeWhile_cons]
    simp only [show isWs ' ' = true from rfl, if_true]
    rw [List.cons_append, List.takeWhile_cons]
    simp [hwsL l0 (List.mem_cons_self l0 lr)]
  have e5 : (' ' :: ((l0 :: lr) ++ ' ' :: "jane@x.com".toList)).dropWhile isWs
      = (l0 :: lr) ++ ' ' :: "jane@x.com".toList := by
    rw [List.dropWhile_cons]
    simp only [show isWs ' ' = true from rfl, if_true]
    rw [List.cons_append, List.dropWhile_cons]
    simp [hwsL l0 (List.mem_cons_self l0 lr)]
  have e6 := @span_exact isNameChar (l0 :: lr) hln ' ' "jane@x.com".toList (by decide)
  unfold adminNameStrictTail
  rw [e1]
  dsimp only
  rw [e2.1, e2.2, e4, e5, e6.1, e6.2]
  simp
  refine ⟨by decide, ⟨by decide, by decide⟩, by rfl⟩

theorem scanForCI_cons_hit {α : Type} {pat : List Char} {k : List Char → Option α}
    {c : Char} {cs : List Char} {a : α}
    (h1 : startsWithCI pat (c :: cs) = true)
    (h2 : k (List.drop pat.length (c :: cs)) = some a) :
    scanForCI pat k (c :: cs) = some a := by
  unfold scanForCI
  rw [h1]
  simp [h2]

/-- C8: person-name extraction tolerates accented Latin letters (plus
hyphens and apostrophes).  The strict pattern accepts any two nonempty
name-character tokens immediately preceding the e-mail after
"Customer Admin:" and returns both intact; when the strict pattern cannot
see an e-mail (markup-wrapped address) or sees more than two tokens, the
fallback takes the first two name tokens after the marker on a line
containing it; with no two-token run at all the result is `null`. -/
theorem c8_admin_name_extraction :
    (∀ (f0 l0 : Char) (fr lr : List Char),
      (∀ c ∈ f0 :: fr, isNameChar c = true) → (∀ c ∈ l0 :: lr, isNameChar c = true) →
      extractCustomerAdminName
          ("Customer Admin:".toList ++ ' ' :: ((f0 :: fr) ++ ' ' ::
            ((l0 :: lr) ++ ' ' :: "jane@x.com".toList)))
        = some (f0 :: fr, l0 :: lr)) ∧
    extractCustomerAdminName
        "Customer Admin: José Álvarez <mailto:jose@x.com|José Álvarez>".toList
      = some ("José".toList, "Álvarez".toList) ∧
    extractCustomerAdminName "Customer Admin: Anne Marie Doe a@b.co".toList
      = some ("Anne".toList, "Marie".toList) ∧
    extractCustomerAdminName "Customer Admin: jane@x.com".toList = none := by
  refine ⟨?_, by decide, by decide, by decide⟩
  intro f0 l0 fr lr hfn hln
  have hA : ∀ c ∈ "Customer Admin:".toList, c ≠ '<' ∧ c ≠ '*' := by decide
  have hE : ∀ c ∈ "jane@x.com".toList, c ≠ '<' ∧ c ≠ '*' := by decide
  have hsp : ((' ' : Char) ≠ '<' ∧ (' ' : Char) ≠ '*') := by decide
  have hchars : ∀ c ∈ ("Customer Admin:".toList ++ ' ' :: ((f0 :: fr) ++ ' ' ::
      ((l0 :: lr) ++ ' ' :: "jane@x.com".toList))), c ≠ '<' ∧ c ≠ '*' := by
    intro c hc
    rcases List.mem_append.mp hc with hc | hc
    · exact hA c hc
    · rcases List.mem_cons.mp hc with rfl | hc
      · exact hsp
      · rcases List.mem_append.mp hc with hc | hc
        · exact ⟨(isNameChar_props (hfn c hc)).1, (isNameChar_props (hfn c hc)).2.1⟩
        · rcases List.mem_cons.mp hc with rfl | hc
          · exact hsp
          · rcases List.mem_append.mp hc with hc | hc
            · exact ⟨(isNameChar_props (hln c hc)).1, (isNameChar_props (hln c hc)).2.1⟩
            · rcases List.mem_cons.mp hc with rfl | hc
              · exact hsp
              · exact hE c hc
  have hclean : cleanForName ("Customer Admin:".toList ++ ' ' :: ((f0 :: fr) ++ ' ' ::
      ((l0 :: lr) ++ ' ' :: "jane@x.com".toList)))
      = "Customer Admin:".toList ++ ' ' :: ((f0 :: fr) ++ ' ' ::
        ((l0 :: lr) ++ ' ' :: "jane@x.com".toList)) :=
    cleanForName_id (fun c hc => (hchars c hc).1) (fun c hc => (hchars c hc).2)
  have hpre : "customer admin:".toList <+:
      lowerL ("Customer Admin:".toList ++ ' ' :: ((f0 :: fr) ++ ' ' ::
        ((l0 :: lr) ++ ' ' :: "jane@x.com".toList))) := by
    rw [lowerL, List.map_append]
    exact List.prefix_append _ _
  have h1 : startsWithCI "customer admin:".toList
      ('C' :: ("ustomer Admin:".toList ++ ' ' :: ((f0 :: fr) ++ ' ' ::
        ((l0 :: lr) ++ ' ' :: "jane@x.com".toList)))) = true := by
    rw [startsWithCI_iff]
    exact hpre
  have hdrop : List.drop ("customer admin:".toList).length
      ('C' :: ("ustomer Admin:".toList ++ ' ' :: ((f0 :: fr) ++ ' ' ::
        ((l0 :: lr) ++ ' ' :: "jane@x.com".toList))))
      = ' ' :: ((f0 :: fr) ++ ' ' :: ((l0 :: lr) ++ ' ' :: "jane@x.com".toList)) := by
    rw [show ('C' :: ("ustomer Admin:".toList ++ ' ' :: ((f0 :: fr) ++ ' ' ::
        ((l0 :: lr) ++ ' ' :: "jane@x.com".toList))) : List Char)
      = "Customer Admin:".toList ++ (' ' :: ((f0 :: fr) ++ ' ' ::
        ((l0 :: lr) ++ ' ' :: "jane@x.com".toList))) from rfl]
    rw [show ("customer admin:".toList).length = ("Customer Admin:".toList).length from rfl]
    exact List.drop_left _ _
  have hscan : scanForCI "customer admin:".toList adminNameStrictTail
      ('C' :: ("ustomer Admin:".toList ++ ' ' :: ((f0 :: fr) ++ ' ' ::
        ((l0 :: lr) ++ ' ' :: "jane@x.com".toList)))) = some (f0 :: fr, l0 :: lr) := by
    refine scanForCI_cons_hit h1 ?_
    rw [hdrop]
    exact adminNameStrictTail_generic f0 l0 fr lr hfn hln
  unfold extractCustomerAdminName
  dsimp only
  rw [hclean]
  rw [show ("Customer Admin:".toList ++ ' ' :: ((f0 :: fr) ++ ' ' ::
      ((l0 :: lr) ++ ' ' :: "jane@x.com".toList)) : List Char)
    = 'C' :: ("ustomer Admin:".toList ++ ' ' :: ((f0 :: fr) ++ ' ' ::
      ((l0 :: lr) ++ ' ' :: "jane@x.com".toList))) from rfl]
  rw [hscan]

/-- C3: e-mail extraction first collapses chat markup (mailto wrappers to
the bare address, bold markers stripped), then returns the first
e-mail-shaped substring after "Customer Admin:" (case-insensitively, on the
marker's line); failing that, the first e-mail-shaped substring on a line
containing "customer admin"; with no marker anywhere in the normalized text
it returns `null`.  A `<mailto:jane.doe@example.com|Jane Doe>` wrapper
yields the bare lower-cased address. -/
theorem c3_email_extraction :
    (∀ t : List Char, occursCI "customer admin".toList (cleanForEmail t) = false →
      extractCustomerAdminEmail t = none) ∧
    extractCustomerAdminEmail
        ("New ChiliPiper License Request Submitted!\n" ++
          "*Customer Admin:* Jane Doe <mailto:jane.doe@example.com|Jane Doe>").toList
      = some "jane.doe@example.com".toList ∧
    extractCustomerAdminEmail
        "Customer Admin: Jane Doe jane.doe@Example.COM and bob@y.com".toList
      = some "jane.doe@example.com".toList ∧
    extractCustomerAdminEmail "the customer admin is listed: see jane@x.io ok".toList
      = some "jane@x.io".toList := by
  exact ⟨fun t h => extractCustomerAdminEmail_eq_none h, by decide, by decide, by decide⟩

/-- The account the cascade settles on: domain lookup first, company-name
lookup only when the domain lookup failed and a nonempty company name was
extracted. -/
def cascadeAccount (env : CrmEnv) (email : List Char) (nm : Option (List Char)) :
    Option Account :=
  match (findAccountByDomain env email).2 with
  | some a => some a
  | none =>
    match nm with
    | some n => if n ≠ [] then (findAccountByName env n).2 else none
    | none => none

theorem mem_fcbea_iff (env : CrmEnv) (e aid : List Char) (s : Step) :
    s ∈ (findContactByEmailAndAccount env e aid).1 ↔
      s = Step.contactOnAccountExact ∨
      (env.contactByEmailAndAccount e aid = none ∧ s = Step.contactOnAccountScan) := by
  unfold findContactByEmailAndAccount
  cases h : env.contactByEmailAndAccount e aid <;> simp [h]

theorem mem_createContact_steps (env : CrmEnv) (f l e aid : List Char) (s : Step) :
    s ∈ (createContact env f l e aid).1 ↔
      s = Step.contactCreateCall ∨
      (s = Step.contactRefetch ∧
        ∃ r, env.contactCreate f l e aid = .ok r ∧ r.success = true) := by
  unfold createContact
  cases h : env.contactCreate f l e aid with
  | error m => simp [h]
  | ok r =>
    cases hr : r.success
    · simp [h, hr]
    · cases h2 : env.contactById r.id with
      | ok oc => cases oc <;> simp [h, hr, h2]
      | error m2 => simp [h, hr, h2]


/-- C2: the resolution cascade's order, first success winning: a direct
contact-by-e-mail hit short-circuits every later lookup; otherwise the
account is sought by the e-mail's domain (website substring match, then the
dedicated domain field), by company name (exact, then contains) only when
the domain lookup failed and a nonempty company name was extracted; a found
account triggers the scoped search for an existing contact on it; and a new
contact is created only when that scoped search is empty and a two-token
person name was extracted. -/
theorem c2_resolution_order (env : CrmEnv) (text email : List Char)
    (nm : Option (List Char)) (dom : List Char)
    (hdom : (splitOnChar '@' email)[1]? = some dom) (hdne : dom ≠ []) :
    (∀ c, env.contactByEmail (lowerL (jsTrim email)) = some c →
      resolveContact env text email nm = ([Step.contactByEmail], .success c false)) ∧
    (Step.accountWebsite ∈ (resolveContact env text email nm).1 ↔
      env.contactByEmail (lowerL (jsTrim email)) = none) ∧
    (Step.accountDomainField ∈ (resolveContact env text email nm).1 ↔
      env.contactByEmail (lowerL (jsTrim email)) = none ∧
      env.accountByWebsite dom = none) ∧
    (Step.accountNameExact ∈ (resolveContact env text email nm).1 ↔
      env.contactByEmail (lowerL (jsTrim email)) = none ∧
      env.accountByWebsite dom = none ∧ env.accountByDomainField dom = none ∧
      ∃ n, nm = some n ∧ n ≠ []) ∧
    (Step.accountNameLike ∈ (resolveContact env text email nm).1 ↔
      env.contactByEmail (lowerL (jsTrim email)) = none ∧
      env.accountByWebsite dom = none ∧ env.accountByDomainField dom = none ∧
      ∃ n, nm = some n ∧ n ≠ [] ∧ env.accountByNameExact n = none) ∧
    (Step.contactOnAccountExact ∈ (resolveContact env text email nm).1 ↔
      env.contactByEmail (lowerL (jsTrim email)) = none ∧
      (cascadeAccount env email nm).isSome = true) ∧
    (Step.contactCreateCall ∈ (resolveContact env text email nm).1 ↔
      env.contactByEmail (lowerL (jsTrim email)) = none ∧
      ∃ a, cascadeAccount env email nm = some a ∧
        (findContactByEmailAndAccount env email a.Id).2 = none ∧
        (extractCustomerAdminName text).isSome = true) := by
  unfold resolveContact findContactByEmail
  cases hc : env.contactByEmail (lowerL (jsTrim email)) with
  | some c =>
    simp only [hc]
    refine ⟨?_, ?_, ?_, ?_, ?_, ?_, ?_⟩
    · intro c2 hc2
      injection hc2 with hc2
      rw [hc2]
    all_goals simp
  | none =>
    simp only [hc, findAccountByDomain, hdom]
    rw [if_neg hdne]
    cases hweb : env.accountByWebsite dom with
    | some a =>
      simp only [hweb]
      rcases hfe : findContactByEmailAndAccount env email a.Id with ⟨s4, ex⟩
      have hm4 : ∀ s : Step, s ∈ s4 ↔ s = Step.contactOnAccountExact ∨
          (env.contactByEmailAndAccount email a.Id = none ∧ s = Step.contactOnAccountScan) := by
        intro s
        have h := mem_fcbea_iff env email a.Id s
        rw [hfe] at h
        simpa using h
      simp only [hfe]
      cases ex with
      | some ec =>
        simp [List.mem_append, hm4, cascadeAccount, findAccountByDomain, findAccountByName,
          hdom, hdne, hc, hfe, hweb]
      | none =>
        cases hadm : extractCustomerAdminName text with
        | none =>
          simp only [hadm]
          simp [List.mem_append, hm4, cascadeAccount, findAccountByDomain, findAccountByName,
            hdom, hdne, hc, hfe, hadm, hweb]
        | some fl =>
          simp only [hadm]
          rcases fl with ⟨f0, l0⟩
          rcases hcc : createContact env f0 l0 email a.Id with ⟨s5, newc⟩
          have hm5 : ∀ s : Step, s ∈ s5 ↔ s = Step.contactCreateCall ∨
              (s = Step.contactRefetch ∧
                ∃ r, env.contactCreate f0 l0 email a.Id = .ok r ∧ r.success = true) := by
            intro s
            have h := mem_createContact_steps env f0 l0 email a.Id s
            rw [hcc] at h
            simpa using h
          simp only [hcc]
          cases newc with
          | some c =>
            simp [List.mem_append, hm4, hm5, cascadeAccount, findAccountByDomain,
              findAccountByName, hdom, hdne, hc, hfe, hadm, hweb]
          | none =>
            simp [List.mem_append, hm4, hm5, cascadeAccount, findAccountByDomain,
              findAccountByName, hdom, hdne, hc, hfe, hadm, hweb]

    | none =>
      simp only [hweb]
      cases hdf : env.accountByDomainField dom with
      | some a =>
        simp only [hdf]
        rcases hfe : findContactByEmailAndAccount env email a.Id with ⟨s4, ex⟩
        have hm4 : ∀ s : Step, s ∈ s4 ↔ s = Step.contactOnAccountExact ∨
            (env.contactByEmailAndAccount email a.Id = none ∧ s = Step.contactOnAccountScan) := by
          intro s
          have h := mem_fcbea_iff env email a.Id s
          rw [hfe] at h
          simpa using h
        simp only [hfe]
        cases ex with
        | some ec =>
          simp [List.mem_append, hm4, cascadeAccount, findAccountByDomain, findAccountByName,
            hdom, hdne, hc, hfe, hweb, hdf]
        | none =>
          cases hadm : extractCustomerAdminName text with
          | none =>
            simp only [hadm]
            simp [List.mem_append, hm4, cascadeAccount, findAccountByDomain, findAccountByName,
              hdom, hdne, hc, hfe, hadm, hweb, hdf]
          | some fl =>
            simp only [hadm]
            rcases fl with ⟨f0, l0⟩
            rcases hcc : createContact env f0 l0 email a.Id with ⟨s5, newc⟩
            have hm5 : ∀ s : Step, s ∈ s5 ↔ s = Step.contactCreateCall ∨
                (s = Step.contactRefetch ∧
                  ∃ r, env.contactCreate f0 l0 email a.Id = .ok r ∧ r.success = true) := by
              intro s
              have h := mem_createContact_steps env f0 l0 email a.Id s
              rw [hcc] at h
              simpa using h
            simp only [hcc]
            cases newc with
            | some c =>
              simp [List.mem_append, hm4, hm5, cascadeAccount, findAccountByDomain,
                findAccountByName, hdom, hdne, hc, hfe, hadm, hweb, hdf]
            | none =>
              simp [List.mem_append, hm4, hm5, cascadeAccount, findAccountByDomain,
                findAccountByName, hdom, hdne, hc, hfe, hadm, hweb, hdf]

      | none =>
        simp only [hdf]
        cases hnm : nm with
        | none =>
          simp only [hnm]
          simp [cascadeAccount, findAccountByDomain, findAccountByName,
            hdom, hdne, hc, hweb, hdf, hnm]
        | some n =>
          simp only [hnm]
          by_cases hn : n ≠ []
          · rw [if_pos hn]
            simp only [findAccountByName]
            cases hex : env.accountByNameExact n with
            | some a =>
              simp only [hex]
              rcases hfe : findContactByEmailAndAccount env email a.Id with ⟨s4, ex⟩
              have hm4 : ∀ s : Step, s ∈ s4 ↔ s = Step.contactOnAccountExact ∨
                  (env.contactByEmailAndAccount email a.Id = none ∧ s = Step.contactOnAccountScan) := by
                intro s
                have h := mem_fcbea_iff env email a.Id s
                rw [hfe] at h
                simpa using h
              simp only [hfe]
              cases ex with
              | some ec =>
                simp [List.mem_append, hm4, cascadeAccount, findAccountByDomain, findAccountByName,
                  hdom, hdne, hc, hfe, hweb, hdf, hnm, hn, hex]
              | none =>
                cases hadm : extractCustomerAdminName text with
                | none =>
                  simp only [hadm]
                  simp [List.mem_append, hm4, cascadeAccount, findAccountByDomain, findAccountByName,
                    hdom, hdne, hc, hfe, hadm, hweb, hdf, hnm, hn, hex]
                | some fl =>
                  simp only [hadm]
                  rcases fl with ⟨f0, l0⟩
                  rcases hcc : createContact env f0 l0 email a.Id with ⟨s5, newc⟩
                  have hm5 : ∀ s : Step, s ∈ s5 ↔ s = Step.contactCreateCall ∨
                      (s = Step.contactRefetch ∧
                        ∃ r, env.contactCreate f0 l0 email a.Id = .ok r ∧ r.success = true) := by
                    intro s
                    have h := mem_createContact_steps env f0 l0 email a.Id s
                    rw [hcc] at h
                    simpa using h
                  simp only [hcc]
                  cases newc with
                  | some c =>
                    simp [List.mem_append, hm4, hm5, cascadeAccount, findAccountByDomain,
                      findAccountByName, hdom, hdne, hc, hfe, hadm, hweb, hdf, hnm, hn, hex]
                  | none =>
                    simp [List.mem_append, hm4, hm5, cascadeAccount, findAccountByDomain,
                      findAccountByName, hdom, hdne, hc, hfe, hadm, hweb, hdf, hnm, hn, hex]

            | none =>
              simp only [hex]
              cases hlike : env.accountByNameLike n with
              | some a =>
                simp only [hlike]
                rcases hfe : findContactByEmailAndAccount env email a.Id with ⟨s4, ex⟩
                have hm4 : ∀ s : Step, s ∈ s4 ↔ s = Step.contactOnAccountExact ∨
                    (env.contactByEmailAndAccount email a.Id = none ∧ s = Step.contactOnAccountScan) := by
                  intro s
                  have h := mem_fcbea_iff env email a.Id s
                  rw [hfe] at h
                  simpa using h
                simp only [hfe]
                cases ex with
                | some ec =>
                  simp [List.mem_append, hm4, cascadeAccount, findAccountByDomain, findAccountByName,
                    hdom, hdne, hc, hfe, hweb, hdf, hnm, hn, hex, hlike]
                | none =>
                  cases hadm : extractCustomerAdminName text with
                  | none =>
                    simp only [hadm]
                    simp [List.mem_append, hm4, cascadeAccount, findAccountByDomain, findAccountByName,
                      hdom, hdne, hc, hfe, hadm, hweb, hdf, hnm, hn, hex, hlike]
                  | some fl =>
                    simp only [hadm]
                    rcases fl with ⟨f0, l0⟩
                    rcases hcc : createContact env f0 l0 email a.Id with ⟨s5, newc⟩
                    have hm5 : ∀ s : Step, s ∈ s5 ↔ s = Step.contactCreateCall ∨
                        (s = Step.contactRefetch ∧
                          ∃ r, env.contactCreate f0 l0 email a.Id = .ok r ∧ r.success = true) := by
                      intro s
                      have h := mem_createContact_steps env f0 l0 email a.Id s
                      rw [hcc] at h
                      simpa using h
                    simp only [hcc]
                    cases newc with
                    | some c =>
                      simp [List.mem_append, hm4, hm5, cascadeAccount, findAccountByDomain,
                        findAccountByName, hdom, hdne, hc, hfe, hadm, hweb, hdf, hnm, hn, hex, hlike]
                    | none =>
                      simp [List.mem_append, hm4, hm5, cascadeAccount, findAccountByDomain,
                        findAccountByName, hdom, hdne, hc, hfe, hadm, hweb, hdf, hnm, hn, hex, hlike]

              | none =>
                simp only [hlike]
                simp [cascadeAccount, findAccountByDomain, findAccountByName,
                  hdom, hdne, hc, hweb, hdf, hnm, hn, hex, hlike]
          · rw [if_neg hn]
            simp only [Ne, not_not] at hn
            simp [cascadeAccount, findAccountByDomain, findAccountByName,
              hdom, hdne, hc, hweb, hdf, hnm, hn]

/-! ## Concrete instances used by the witnesses -/

def wCfg : Config :=
  { licenseRequestChannel := "C06JLLX47UK".toList
    customerTagUser := "U04SEQE79FE".toList
    sfInstanceUrl := "https://chilipiper.lightning.force.com".toList
    gongResellerAccountName := "Gong - Reseller Account".toList
    gongResellerAccountId := some "GONG1".toList }

def wCfgNone : Config := { wCfg with gongResellerAccountId := none }

def wProspect : Account :=
  { Id := "A1".toList, Name := "Acme".toList, acctType := some "Prospect".toList }

def wContact : Contact :=
  { Id := "CT1".toList, Name := "Jane Doe".toList, Email := some "jane@acme.com".toList,
    AccountId := some "A1".toList, Account := some wProspect }

def wEnv : CrmEnv :=
  { sfConnected := true, initOk := true, gongLookup := none
    contactByEmail := fun e => if e = "jane@acme.com".toList then some wContact else none
    accountByWebsite := fun _ => none
    accountByDomainField := fun _ => none
    accountByNameExact := fun _ => none
    accountByNameLike := fun _ => none
    contactByEmailAndAccount := fun _ _ => none
    contactsOfAccount := fun _ => []
    contactCreate := fun _ _ _ _ => .ok ⟨true, "NEW1".toList⟩
    contactById := fun _ => .ok none
    accountById := fun _ => none
    oppCreate := fun _ => .ok ⟨true, "OPP1".toList⟩
    subscriptionByAccount := fun _ _ => none }

def wEnv2 : CrmEnv :=
  { wEnv with
    contactByEmail := fun _ => none
    accountByNameLike := fun _ => some wProspect }

def wEnvCF : CrmEnv :=
  { wEnv with
    oppCreate := fun d =>
      if d.Won_Lost_Reason__c.isSome then .error "No such column BillingAccount__c".toList
      else .ok ⟨true, "OPP2".toList⟩ }

def wEnvFail : CrmEnv :=
  { wEnv with oppCreate := fun _ => .error "FIELD_INTEGRITY_EXCEPTION".toList }

def wEnvErr : CrmEnv :=
  { wEnv with
    contactCreate := fun _ _ _ _ => .error "Session expired or invalid".toList
    oppCreate := fun _ => .error "Session expired or invalid".toList }

def wMsg : SlackMessage :=
  { channel := "C06JLLX47UK".toList, subtype := none
    text := ("New ChiliPiper License Request Submitted!\n" ++
      "*Customer Name:* Acme\n" ++
      "*Customer Admin:* Jane Doe <mailto:jane@acme.com|Jane Doe>").toList
    ts := "1".toList }

def wMsg9 : SlackMessage :=
  { wMsg with
    text := "New ChiliPiper License Request Submitted!\nCustomer Name: Acme".toList }

def wOpp : OppResult :=
  { id := "OPP1".toList, name := "Acme - Inbound".toList,
    url := "https://chilipiper.lightning.force.com/lightning/r/Opportunity/OPP1/view".toList,
    note := none }

def wOpp2 : OppResult :=
  { id := "OPP2".toList, name := "Acme - Inbound".toList,
    url := "https://chilipiper.lightning.force.com/lightning/r/Opportunity/OPP2/view".toList,
    note := some oppFallbackNote }

def wQEnv : QueryEnv :=
  { attempt := fun n =>
      if n = 0 then .error "INVALID_SESSION_ID: Session expired or invalid".toList
      else .ok []
    reconnectOk := true }

def wQEnvInv : QueryEnv :=
  { attempt := fun _ => .error "invalid query locator".toList, reconnectOk := true }

/-! ## Witnesses -/

set_option maxRecDepth 100000

theorem c1_witness :
    oppsCreated wEnv (handleMessage wCfg wEnv 100 wMsg) ≤ 1 ∧
    (oppsCreated wEnv (handleMessage wCfg wEnv 100 wMsg) = 1 ↔
      (handleMessage wCfg wEnv 100 wMsg).contact.isSome = true ∧
      ∃ a, (handleMessage wCfg wEnv 100 wMsg).account = some a ∧
        lowerL (accountTypeOf a) = "prospect".toList) :=
  ⟨(c1_opportunity_iff_prospect wCfg wEnv 100 wMsg).1,
   (c1_opportunity_iff_prospect wCfg wEnv 100 wMsg).2
     (fun _ => ⟨⟨true, "OPP1".toList⟩, rfl, rfl⟩)⟩

theorem c2_witness :
    Step.accountNameLike ∈
      (resolveContact wEnv2 wMsg.text "jane@acme.com".toList (some "Acme".toList)).1 :=
  ((c2_resolution_order wEnv2 wMsg.text "jane@acme.com".toList (some "Acme".toList)
      "acme.com".toList (by decide) (by decide)).2.2.2.2.1).mpr
    ⟨rfl, rfl, rfl, "Acme".toList, rfl, by decide, rfl⟩

theorem c3_witness :
    extractCustomerAdminEmail "no marker anywhere in this text".toList = none :=
  c3_email_extraction.1 "no marker anywhere in this text".toList (by decide)

theorem c4_witness : wOpp.name = wProspect.Name ++ " - Inbound".toList :=
  (c4_opportunity_name_closedate wCfg wEnv 100 wMsg wProspect (by decide)).2 wOpp (by decide)

theorem c5_witness :
    sfQuery wQEnv = { result := wQEnv.attempt 1, attempts := 2, reconnects := 1 } ∧
    (sfQuery wQEnv).attempts ≤ 2 ∧
    ((createContact wEnv "Jane".toList "Doe".toList "j@a.co".toList "A1".toList).1.filter
      (fun s => s = Step.contactCreateCall)).length = 1 ∧
    createContact wEnvErr "Jane".toList "Doe".toList "j@a.co".toList "A1".toList
      = ([Step.contactCreateCall], none) ∧
    createOpportunity wEnvErr wCfg 100 (some wContact) wProspect
      = ([Step.oppCreateCall (fullOppData wCfg 100 (some wContact) wProspect)], none) :=
  ⟨c5_query_retry_creates_direct.1 wQEnv _ rfl (by decide) rfl,
   c5_query_retry_creates_direct.2.1 wQEnv,
   c5_query_retry_creates_direct.2.2.1 wEnv _ _ _ _,
   c5_query_retry_creates_direct.2.2.2.1 wEnvErr "Jane".toList "Doe".toList "j@a.co".toList
     "A1".toList _ rfl,
   c5_query_retry_creates_direct.2.2.2.2 wEnvErr wCfg 100 (some wContact) wProspect _
     rfl (by decide) (by decide)⟩

theorem c6_witness :
    createOpportunity wEnvCF wCfg 100 (some wContact) wProspect
      = (Step.oppCreateCall (fullOppData wCfg 100 (some wContact) wProspect)
          :: (createOpportunityWithoutCustomFields wEnvCF wCfg 100 (some wContact) wProspect).1,
         (createOpportunityWithoutCustomFields wEnvCF wCfg 100 (some wContact) wProspect).2) ∧
    (createOpportunityWithoutCustomFields wEnvCF wCfg 100 (some wContact) wProspect).2
      = some { id := "OPP2".toList, name := wProspect.Name ++ " - Inbound".toList,
               url := opportunityUrl wCfg "OPP2".toList, note := some oppFallbackNote } ∧
    (∃ rep ∈ (handleMessage wCfg wEnvCF 100 wMsg).replies,
      occursL oppFallbackNote rep = true) ∧
    (∃ rep ∈ (handleMessage wCfg wEnvFail 100 wMsg).replies,
      occursL "Please create the opportunity manually.".toList rep = true) :=
  ⟨c6_custom_field_fallback.1 wEnvCF wCfg 100 (some wContact) wProspect _ rfl (by decide),
   c6_custom_field_fallback.2.2.1 wEnvCF wCfg 100 (some wContact) wProspect
     ⟨true, "OPP2".toList⟩ rfl rfl,
   c6_custom_field_fallback.2.2.2.1 wCfg wEnvCF 100 wMsg wOpp2 oppFallbackNote
     (by decide) rfl,
   c6_custom_field_fallback.2.2.2.2.1 wCfg wEnvFail 100 wMsg wProspect
     (by decide) (by decide) (by decide)⟩

theorem c7_witness :
    (fullOppData wCfgNone 100 (some wContact) wProspect).BillingAccount__c = none ∧
    (createOpportunity wEnv wCfgNone 100 (some wContact) wProspect).2.isSome = true :=
  ⟨((c7_billing_account_iff_cached wCfgNone 100 (some wContact) wProspect).1).trans rfl,
   (c7_billing_account_iff_cached wCfgNone 100 (some wContact) wProspect).2.2 wEnv
     ⟨true, "OPP1".toList⟩ rfl rfl rfl⟩

theorem c8_witness :
    extractCustomerAdminName
        ("Customer Admin:".toList ++ ' ' :: ("Renée".toList ++ ' ' ::
          ("Núñez-García".toList ++ ' ' :: "jane@x.com".toList)))
      = some ("Renée".toList, "Núñez-García".toList) :=
  c8_admin_name_extraction.1 'R' 'N' "enée".toList "úñez-García".toList
    (by decide) (by decide)

theorem c9_witness :
    extractCustomerAdminEmail wMsg9.text = none ∧
    handleMessage wCfg wEnv 100 wMsg9
      = { emptyResult with reactions := ["eyes".toList], replies := [replyNoEmail] } ∧
    (handleMessage wCfg wEnv 100 wMsg9).steps = [] ∧
    oppsCreated wEnv (handleMessage wCfg wEnv 100 wMsg9) = 0 :=
  c9_no_marker_manual_reply wCfg wEnv 100 wMsg9 (by decide) rfl (by decide) (by decide)

theorem c10_witness :
    (sfQuery wQEnvInv).attempts = 2 ∧ (sfQuery wQEnvInv).reconnects = 1 ∧
    (sfQuery wQEnvInv).result = wQEnvInv.attempt 1 :=
  c10_invalid_substring_triggers_retry wQEnvInv "invalid query locator".toList
    rfl (by decide) rfl

end GongBot
